import Mathlib

/-!
# Verification of the pull-request reviewer assigner

Shallow embedding of the Go services and repositories of the
pull-request-assigner repository (packages `internal/service`,
`internal/repo`), together with proofs about the reviewer-selection
algorithm, PR lifecycle operations, team deactivation, statistics and
user-id handling.

The database (PostgreSQL, schema in the migration file) is modelled as an
explicit record of tables; every repository method becomes a pure function
on that state, returning the result together with the post state (errors
roll the transaction back, so the post state on an error of a transactional
method is the pre state).  `math/rand` draws are passed in explicitly: a
call `rand.Shuffle(n, swap)` consumes one bounded index per loop iteration,
so the random source for one shuffle of `n` elements is a dependent vector
giving, for every position `i`, a value `j ≤ i` (the value drawn at the
loop iteration for that position; position `0` is never used, matching the
`for i := n-1; i > 0; i--` loop).
-/

namespace PullReq

/-- decidable equality for `Except` results, used to evaluate the model at
concrete inputs -/
instance {ε α : Type} [DecidableEq ε] [DecidableEq α] : DecidableEq (Except ε α) :=
  fun a b =>
    match a, b with
    | .ok x, .ok y =>
      if h : x = y then isTrue (congrArg Except.ok h)
      else isFalse (fun hc => h (Except.ok.inj hc))
    | .error x, .error y =>
      if h : x = y then isTrue (congrArg Except.error h)
      else isFalse (fun hc => h (Except.error.inj hc))
    | .ok _, .error _ => isFalse (fun hc => Except.noConfusion hc)
    | .error _, .ok _ => isFalse (fun hc => Except.noConfusion hc)

/-! ## Identity codec: `fmt.Sprintf("u%d", id)` and `fmt.Sscanf(s, "u%d", &id)`

`extractUserID` models `fmt.Sscanf(userIDStr, "u%d", &userID)` on the ids
this system handles (a literal `u` followed by decimal digits; `Sscanf`
ignores input after the scanned number, and the sign handling of `%d` is
irrelevant here because every id stored in the database is non-negative).
`formatUserID` models `fmt.Sprintf("u%d", id)`. -/

/-- Decimal digits of `n`, most significant first, via bounded fuel
(`fuel > n` suffices). Mirrors the decimal rendering of `%d`. -/
def natDigitsF : Nat → Nat → List Char
  | 0, _ => []
  | f + 1, n =>
    if n < 10 then [Nat.digitChar n]
    else natDigitsF f (n / 10) ++ [Nat.digitChar (n % 10)]

/-- wrapper choosing enough fuel -/
def natDigits (n : Nat) : List Char := natDigitsF (n + 1) n

/-- value of a digit character -/
def digitVal (c : Char) : Nat := c.toNat - 48

/-- numeric value of a digit string, most significant first -/
def digitsVal (ds : List Char) : Nat := ds.foldl (fun a c => a * 10 + digitVal c) 0

/-- `fmt.Sprintf("u%d", id)` -/
def formatUserID (n : Nat) : String := String.mk ('u' :: natDigits n)

/-- `fmt.Sscanf(s, "u%d", &id)`: a leading `u`, then at least one decimal
digit; input after the digits is ignored by `Sscanf`. -/
def extractUserID (s : String) : Option Nat :=
  match s.data with
  | 'u' :: rest =>
    let ds := rest.takeWhile Char.isDigit
    if ds.isEmpty then none else some (digitsVal ds)
  | _ => none

theorem natDigitsF_fuel_irrel (f₁ f₂ n : Nat) (h₁ : n < f₁) (h₂ : n < f₂) :
    natDigitsF f₁ n = natDigitsF f₂ n := by
  induction n using Nat.strong_induction_on generalizing f₁ f₂ with
  | _ n ih =>
    match f₁, f₂ with
    | g₁ + 1, g₂ + 1 =>
      simp only [natDigitsF]
      by_cases h : n < 10
      · simp [h]
      · simp only [if_neg h]
        have hd : n / 10 < n := Nat.div_lt_self (by omega) (by omega)
        rw [ih (n / 10) hd g₁ g₂ (by omega) (by omega)]

theorem natDigits_large (n : Nat) (h : ¬ n < 10) :
    natDigits n = natDigits (n / 10) ++ [Nat.digitChar (n % 10)] := by
  have hd : n / 10 < n := Nat.div_lt_self (by omega) (by omega)
  show natDigitsF (n + 1) n = natDigitsF (n / 10 + 1) (n / 10) ++ [Nat.digitChar (n % 10)]
  rw [natDigitsF, if_neg h, natDigitsF_fuel_irrel n (n / 10 + 1) (n / 10) (by omega) (by omega)]

theorem digitChar_isDigit (d : Nat) (h : d < 10) : (Nat.digitChar d).isDigit = true := by
  interval_cases d <;> decide

theorem digitVal_digitChar (d : Nat) (h : d < 10) : digitVal (Nat.digitChar d) = d := by
  interval_cases d <;> decide

theorem natDigits_all_digits (n : Nat) : ∀ c ∈ natDigits n, c.isDigit = true := by
  induction n using Nat.strong_induction_on with
  | _ n ih =>
    by_cases h : n < 10
    · intro c hc
      have : natDigits n = [Nat.digitChar n] := by simp [natDigits, natDigitsF, h]
      rw [this] at hc
      simp only [List.mem_singleton] at hc
      subst hc; exact digitChar_isDigit n h
    · intro c hc
      rw [natDigits_large n h] at hc
      rcases List.mem_append.mp hc with h1 | h2
      · exact ih (n / 10) (Nat.div_lt_self (by omega) (by omega)) c h1
      · simp only [List.mem_singleton] at h2
        subst h2; exact digitChar_isDigit _ (Nat.mod_lt _ (by omega))

theorem natDigits_ne_nil (n : Nat) : natDigits n ≠ [] := by
  by_cases h : n < 10
  · simp [natDigits, natDigitsF, h]
  · rw [natDigits_large n h]; simp

theorem digitsVal_append_one (ds : List Char) (c : Char) :
    digitsVal (ds ++ [c]) = digitsVal ds * 10 + digitVal c := by
  simp [digitsVal, List.foldl_append]

theorem digitsVal_natDigits (n : Nat) : digitsVal (natDigits n) = n := by
  induction n using Nat.strong_induction_on with
  | _ n ih =>
    by_cases h : n < 10
    · have : natDigits n = [Nat.digitChar n] := by simp [natDigits, natDigitsF, h]
      rw [this]
      simp [digitsVal, digitVal_digitChar n h]
    · rw [natDigits_large n h, digitsVal_append_one,
        ih (n / 10) (Nat.div_lt_self (by omega) (by omega)),
        digitVal_digitChar _ (Nat.mod_lt _ (by omega))]
      omega

/-- the codec round trip: scanning a formatted id gives back the id -/
theorem extractUserID_formatUserID (n : Nat) :
    extractUserID (formatUserID n) = some n := by
  simp only [extractUserID, formatUserID]
  have htw : (natDigits n).takeWhile Char.isDigit = natDigits n :=
    List.takeWhile_eq_self_iff.mpr (by intro c hc; exact natDigits_all_digits n c hc)
  simp only [htw]
  rw [if_neg (by simpa [List.isEmpty_iff] using natDigits_ne_nil n)]
  rw [digitsVal_natDigits]

theorem formatUserID_injective : Function.Injective formatUserID := by
  intro a b hab
  have := extractUserID_formatUserID a
  rw [hab, extractUserID_formatUserID b] at this
  exact (Option.some.injEq _ _).mp this |>.symm

/-! ## `rand.Shuffle` and the reviewer-selection helpers

Go's `rand.Shuffle(n, swap)` runs `for i := n-1; i > 0; i-- { j := draw
uniformly from [0, i]; swap(i, j) }` on the slice.  The slice of length `n`
is embedded as a function `Fin n → α`; `swap(i, j)` is precomposition with
the transposition of positions `i` and `j`.  One run consumes one draw per
position, each bounded by its position, which is the type `FYChoices n`
(position 0 carries a forced dummy value, the loop never draws for it). -/

/-- the random draws consumed by one `rand.Shuffle` of `n` elements -/
abbrev FYChoices (n : Nat) := (i : Fin n) → Fin (i.val + 1)

/-- bound for the draw at position `i + 1`: it is at most `i + 1 < n` -/
theorem fyBound {n : Nat} (i : Nat) (h : i + 1 < n) (j : Fin (i + 1 + 1)) : j.val < n :=
  Nat.lt_of_le_of_lt (Nat.le_of_lt_succ j.isLt) h

/-- the shuffle loop, from `i` down to `1`: at each position the element is
swapped with the drawn position `j ≤ i` -/
def fyLoop {α : Type} {n : Nat} (cs : FYChoices n) :
    (i : Nat) → i < n → (Fin n → α) → (Fin n → α)
  | 0, _, f => f
  | i + 1, h, f =>
    fyLoop cs i (Nat.lt_of_succ_lt h)
      (f ∘ Equiv.swap ⟨i + 1, h⟩ ⟨(cs ⟨i + 1, h⟩).val, fyBound i h (cs ⟨i + 1, h⟩)⟩)

/-- `rand.Shuffle` on a slice viewed as a function: the loop starts at
position `n - 1` (no iteration when `n ≤ 1`) -/
def fyShuffleFun {α : Type} : {n : Nat} → (Fin n → α) → FYChoices n → (Fin n → α)
  | 0, f, _ => f
  | _ + 1, f, cs => fyLoop cs _ (Nat.lt_succ_self _) f

/-- `rand.Shuffle` on a list (the Go code copies the slice and shuffles the
copy; value semantics make the copy invisible) -/
def goShuffle {α : Type} (l : List α) (cs : FYChoices l.length) : List α :=
  List.ofFn (fyShuffleFun l.get cs)

/-- `selectRandomReviewers(members, max)` from `service/pullRequest.go`:
if `len(members) ≤ max`, shuffle a copy of `members` and return all of it;
otherwise shuffle a copy and keep the first `max` entries -/
def selectRandomReviewers (members : List String) (max : Nat)
    (cs : FYChoices members.length) : List String :=
  if members.length ≤ max then goShuffle members cs
  else (goShuffle members cs).take max

/-- `selectRandomReviewer(members)` from `service/pullRequest.go`: empty
input gives `""`, otherwise shuffle and return the first element -/
def selectRandomReviewer (members : List String) (cs : FYChoices members.length) : String :=
  if members.length = 0 then "" else (goShuffle members cs).headD ""

/-! ### The permutation computed by a run of the shuffle -/

/-- the composite of the transpositions applied by `fyLoop` -/
def fyLoopPerm {n : Nat} (cs : FYChoices n) : (i : Nat) → i < n → Equiv.Perm (Fin n)
  | 0, _ => Equiv.refl (Fin n)
  | i + 1, h =>
    (fyLoopPerm cs i (Nat.lt_of_succ_lt h)).trans
      (Equiv.swap ⟨i + 1, h⟩ ⟨(cs ⟨i + 1, h⟩).val, fyBound i h (cs ⟨i + 1, h⟩)⟩)

/-- the permutation of positions computed by one run of the shuffle -/
def fyPerm : {n : Nat} → FYChoices n → Equiv.Perm (Fin n)
  | 0, _ => Equiv.refl (Fin 0)
  | _ + 1, cs => fyLoopPerm cs _ (Nat.lt_succ_self _)

theorem fyLoop_eq_comp_perm {α : Type} {n : Nat} (cs : FYChoices n) :
    ∀ (i : Nat) (h : i < n) (f : Fin n → α), fyLoop cs i h f = f ∘ (fyLoopPerm cs i h)
  | 0, _, f => rfl
  | i + 1, h, f => by
    show fyLoop cs i _ _ = _
    rw [fyLoop_eq_comp_perm cs i (Nat.lt_of_succ_lt h)]
    rfl

theorem fyShuffleFun_eq_comp_perm {α : Type} {n : Nat} (f : Fin n → α) (cs : FYChoices n) :
    fyShuffleFun f cs = f ∘ (fyPerm cs) := by
  match n with
  | 0 => rfl
  | m + 1 => exact fyLoop_eq_comp_perm cs m (Nat.lt_succ_self m) f

/-- positions above the loop counter are never touched -/
theorem fyLoopPerm_apply_of_gt {n : Nat} (cs : FYChoices n) :
    ∀ (i : Nat) (h : i < n) (p : Fin n), i < p.val → fyLoopPerm cs i h p = p
  | 0, _, _, _ => rfl
  | i + 1, h, p, hp => by
    show Equiv.swap _ _ (fyLoopPerm cs i _ p) = p
    rw [fyLoopPerm_apply_of_gt cs i (Nat.lt_of_succ_lt h) p (Nat.lt_of_succ_lt hp)]
    exact Equiv.swap_apply_of_ne_of_ne
      (fun hc => by have := congrArg Fin.val hc; simp at this; omega)
      (fun hc => by
        have := congrArg Fin.val hc
        have hb : (cs ⟨i + 1, h⟩).val < i + 2 := (cs ⟨i + 1, h⟩).isLt
        simp at this; omega)

/-- a transposition of two non-last positions commutes with `Fin.castSucc` -/
theorem swap_castSucc {n : Nat} (a b x : Fin n) :
    Equiv.swap a.castSucc b.castSucc x.castSucc = (Equiv.swap a b x).castSucc := by
  rcases eq_or_ne x a with rfl | hxa
  · rw [Equiv.swap_apply_left, Equiv.swap_apply_left]
  · rcases eq_or_ne x b with rfl | hxb
    · rw [Equiv.swap_apply_right, Equiv.swap_apply_right]
    · rw [Equiv.swap_apply_of_ne_of_ne (fun h => hxa (Fin.castSucc_injective _ h))
        (fun h => hxb (Fin.castSucc_injective _ h)),
        Equiv.swap_apply_of_ne_of_ne hxa hxb]

/-- `swap_castSucc` stated on `Fin.mk` values, as they appear in the loop -/
theorem swap_mk_castSucc {n : Nat} (a b : Nat) (ha : a < n) (hb : b < n)
    (ha1 : a < n + 1) (hb1 : b < n + 1) (x : Fin n) :
    Equiv.swap (⟨a, ha1⟩ : Fin (n + 1)) ⟨b, hb1⟩ x.castSucc =
      (Equiv.swap (⟨a, ha⟩ : Fin n) ⟨b, hb⟩ x).castSucc := by
  show Equiv.swap ((⟨a, ha⟩ : Fin n).castSucc) ((⟨b, hb⟩ : Fin n).castSucc) x.castSucc = _
  exact swap_castSucc _ _ _

/-- the draws for the first `n` positions, out of draws for `n + 1` -/
def csRestrict {n : Nat} (cs : FYChoices (n + 1)) : FYChoices n :=
  fun i => cs i.castSucc

/-- below the last position, the loop on `n + 1` elements acts as the loop
on the first `n` elements -/
theorem fyLoopPerm_castSucc {n : Nat} (cs : FYChoices (n + 1)) :
    ∀ (i : Nat) (h : i < n) (hs : i < n + 1) (p : Fin n),
      fyLoopPerm cs i hs p.castSucc = (fyLoopPerm (csRestrict cs) i h p).castSucc
  | 0, _, _, p => rfl
  | i + 1, h, hs, p => by
    show Equiv.swap ⟨i + 1, hs⟩ ⟨(cs ⟨i + 1, hs⟩).val, fyBound i hs (cs ⟨i + 1, hs⟩)⟩
        (fyLoopPerm cs i (Nat.lt_of_succ_lt hs) p.castSucc) = _
    rw [fyLoopPerm_castSucc cs i (Nat.lt_of_succ_lt h) (Nat.lt_of_succ_lt hs) p]
    exact swap_mk_castSucc (i + 1) (cs ⟨i + 1, hs⟩).val h
      (fyBound i h (csRestrict cs ⟨i + 1, h⟩)) hs (fyBound i hs (cs ⟨i + 1, hs⟩))
      (fyLoopPerm (csRestrict cs) i (Nat.lt_of_succ_lt h) p)

/-- the draw consumed at the first loop iteration (position `n`) -/
def topDraw {n : Nat} (cs : FYChoices (n + 1)) : Fin (n + 1) := cs (Fin.last n)

/-- the first loop iteration sends the drawn position to the last slot -/
theorem fyPerm_last {m : Nat} (cs : FYChoices (m + 2)) :
    fyPerm cs (Fin.last (m + 1)) = topDraw cs := by
  show Equiv.swap ⟨m + 1, Nat.lt_succ_self _⟩ _ (fyLoopPerm cs m _ (Fin.last (m + 1))) = _
  rw [fyLoopPerm_apply_of_gt cs m (Nat.lt_of_succ_lt (Nat.lt_succ_self _)) _
    (Nat.lt_succ_self m)]
  exact Equiv.swap_apply_left _ _

/-- on the remaining slots, a run is the first swap after a run on `n - 1`
elements -/
theorem fyPerm_castSucc {m : Nat} (cs : FYChoices (m + 2)) (p : Fin (m + 1)) :
    fyPerm cs p.castSucc =
      Equiv.swap (Fin.last (m + 1)) (topDraw cs) ((fyPerm (csRestrict cs) p).castSucc) := by
  show Equiv.swap ⟨m + 1, Nat.lt_succ_self _⟩ _ (fyLoopPerm cs m _ p.castSucc) = _
  rw [fyLoopPerm_castSucc cs m (Nat.lt_succ_self m) (Nat.lt_of_succ_lt (Nat.lt_succ_self _)) p]
  rfl

/-- a draw sequence for `n + 1` elements out of one for `n` elements and a
draw for the first iteration -/
def csExtend {n : Nat} (cs₀ : FYChoices n) (j : Fin (n + 1)) : FYChoices (n + 1) :=
  fun i =>
    if h : i.val < n then ⟨(cs₀ ⟨i.val, h⟩).val, (cs₀ ⟨i.val, h⟩).isLt⟩
    else ⟨j.val, by have := j.isLt; have := i.isLt; omega⟩

theorem csRestrict_csExtend {n : Nat} (cs₀ : FYChoices n) (j : Fin (n + 1)) :
    csRestrict (csExtend cs₀ j) = cs₀ := by
  funext i
  show csExtend cs₀ j i.castSucc = cs₀ i
  have hi : (i.castSucc : Fin (n + 1)).val < n := i.isLt
  simp only [csExtend]
  rw [dif_pos hi]
  rfl

theorem topDraw_csExtend {n : Nat} (cs₀ : FYChoices n) (j : Fin (n + 1)) :
    topDraw (csExtend cs₀ j) = j := by
  show csExtend cs₀ j (Fin.last n) = j
  simp only [csExtend]
  rw [dif_neg (by simp)]
  rfl

/-- every permutation of positions is produced by some sequence of draws -/
theorem fyPerm_surjective : ∀ (n : Nat), Function.Surjective (fyPerm (n := n)) := by
  intro n
  induction n with
  | zero =>
    intro σ
    refine ⟨fun i => i.elim0, ?_⟩
    apply Equiv.ext
    intro x
    exact x.elim0
  | succ m ih =>
    match m, ih with
    | 0, _ =>
      intro σ
      refine ⟨fun i => ⟨0, Nat.succ_pos i.val⟩, ?_⟩
      apply Equiv.ext
      intro x
      apply Fin.ext
      have h1 := (fyPerm (fun i : Fin 1 => (⟨0, Nat.succ_pos i.val⟩ : Fin (i.val + 1))) x).isLt
      have h2 := (σ x).isLt
      omega
    | m + 1, ih =>
      intro σ
      have hw : ∀ p : Fin (m + 1),
          Equiv.swap (Fin.last (m + 1)) (σ (Fin.last (m + 1))) (σ p.castSucc) ≠
            Fin.last (m + 1) := by
        intro p hc
        have h1 := congrArg (Equiv.swap (Fin.last (m + 1)) (σ (Fin.last (m + 1)))) hc
        rw [Equiv.swap_apply_self, Equiv.swap_apply_left] at h1
        have h2 : p.castSucc = Fin.last (m + 1) := σ.injective h1
        exact absurd h2 (Fin.ne_of_lt (Fin.castSucc_lt_last p))
      have hwlt : ∀ p : Fin (m + 1),
          (Equiv.swap (Fin.last (m + 1)) (σ (Fin.last (m + 1))) (σ p.castSucc)).val < m + 1 := by
        intro p
        have h1 := (Equiv.swap (Fin.last (m + 1)) (σ (Fin.last (m + 1))) (σ p.castSucc)).isLt
        have h2 : (Equiv.swap (Fin.last (m + 1)) (σ (Fin.last (m + 1)))
            (σ p.castSucc)).val ≠ m + 1 := by
          intro hc
          exact hw p (Fin.ext hc)
        omega
      have tinj : Function.Injective (fun p : Fin (m + 1) =>
          (⟨(Equiv.swap (Fin.last (m + 1)) (σ (Fin.last (m + 1))) (σ p.castSucc)).val,
            hwlt p⟩ : Fin (m + 1))) := by
        intro p₁ p₂ hp
        have hv := congrArg Fin.val hp
        simp only at hv
        have h3 := (Equiv.swap (Fin.last (m + 1)) (σ (Fin.last (m + 1)))).injective
          (Fin.ext hv)
        exact Fin.castSucc_injective _ (σ.injective h3)
      obtain ⟨cs₀, hcs₀⟩ := ih (Equiv.ofBijective _ (Finite.injective_iff_bijective.mp tinj))
      refine ⟨csExtend cs₀ (σ (Fin.last (m + 1))), ?_⟩
      apply Equiv.ext
      intro x
      induction x using Fin.lastCases with
      | last =>
        rw [fyPerm_last, topDraw_csExtend]
      | cast p =>
        rw [fyPerm_castSucc, csRestrict_csExtend, hcs₀, topDraw_csExtend]
        have hτ : ((Equiv.ofBijective _ (Finite.injective_iff_bijective.mp tinj)) p).castSucc =
            Equiv.swap (Fin.last (m + 1)) (σ (Fin.last (m + 1))) (σ p.castSucc) :=
          Fin.ext rfl
        rw [hτ, Equiv.swap_apply_self]

theorem prod_univ_val_add_one : ∀ (n : Nat), (∏ i : Fin n, (i.val + 1)) = n.factorial := by
  intro n
  induction n with
  | zero => simp
  | succ m ih =>
    rw [Fin.prod_univ_castSucc]
    simp only [Fin.coe_castSucc, Fin.val_last]
    rw [ih, Nat.factorial_succ]
    exact Nat.mul_comm _ _

theorem card_fychoices (n : Nat) : Fintype.card (FYChoices n) = n.factorial := by
  rw [Fintype.card_pi]
  simp only [Fintype.card_fin]
  exact prod_univ_val_add_one n

/-- runs of the shuffle are in bijection with permutations of positions:
together with `fyPerm_surjective` this is the uniformity of Fisher–Yates
(each of the `n!` equally likely draw sequences yields a distinct
permutation) -/
theorem fyPerm_bijective (n : Nat) : Function.Bijective (fyPerm (n := n)) :=
  (Fintype.bijective_iff_surjective_and_card _).mpr
    ⟨fyPerm_surjective n, by rw [card_fychoices, Fintype.card_perm, Fintype.card_fin]⟩

/-! ### Outcome-level facts about the shuffle -/

theorem goShuffle_eq_ofFn {α : Type} (l : List α) (cs : FYChoices l.length) :
    goShuffle l cs = List.ofFn (fun p => l.get (fyPerm cs p)) := by
  unfold goShuffle
  rw [fyShuffleFun_eq_comp_perm]
  rfl

theorem ofFn_get_perm {α : Type} [DecidableEq α] (l : List α)
    (σ : Equiv.Perm (Fin l.length)) : (List.ofFn (fun p => l.get (σ p))).Perm l := by
  rw [List.ofFn_eq_map]
  have hmm : List.map (fun p => l.get (σ p)) (List.finRange l.length) =
      List.map l.get (List.map σ (List.finRange l.length)) := by
    rw [List.map_map]
    rfl
  rw [hmm]
  have hperm : (List.map σ (List.finRange l.length)).Perm (List.finRange l.length) := by
    apply List.perm_of_nodup_nodup_toFinset_eq
    · exact (List.nodup_finRange _).map σ.injective
    · exact List.nodup_finRange _
    · ext x
      simp only [List.mem_toFinset, List.mem_map, List.mem_finRange, true_and, iff_true]
      exact ⟨σ.symm x, σ.apply_symm_apply x⟩
  refine (hperm.map l.get).trans ?_
  rw [← List.ofFn_eq_map, List.ofFn_get]

/-- a run of the shuffle is a permutation of its input -/
theorem goShuffle_perm {α : Type} [DecidableEq α] (l : List α) (cs : FYChoices l.length) :
    (goShuffle l cs).Perm l := by
  rw [goShuffle_eq_ofFn]
  exact ofFn_get_perm l (fyPerm cs)

theorem goShuffle_nodup {α : Type} [DecidableEq α] (l : List α) (hl : l.Nodup)
    (cs : FYChoices l.length) : (goShuffle l cs).Nodup :=
  (goShuffle_perm l cs).symm.nodup hl

theorem goShuffle_length {α : Type} [DecidableEq α] (l : List α) (cs : FYChoices l.length) :
    (goShuffle l cs).length = l.length :=
  (goShuffle_perm l cs).length_eq

/-- every rearrangement of the input is a run of the shuffle, for exactly
one sequence of draws (uniformity over the equally likely draw sequences) -/
theorem goShuffle_existsUnique {α : Type} [DecidableEq α] (l : List α) (hl : l.Nodup)
    (q : List α) (hq : q.Perm l) : ∃! cs : FYChoices l.length, goShuffle l cs = q := by
  have hqlen : q.length = l.length := hq.length_eq
  have hqnd : q.Nodup := hq.symm.nodup hl
  have hget : ∀ i : Fin l.length, q.get ⟨i.val, by omega⟩ ∈ l := fun i =>
    hq.mem_iff.mp (List.get_mem q i.val (by omega))
  have tinj : Function.Injective (fun i : Fin l.length =>
      (⟨List.indexOf (q.get ⟨i.val, by omega⟩) l,
        List.indexOf_lt_length.mpr (hget i)⟩ : Fin l.length)) := by
    intro i₁ i₂ hi
    have hv := congrArg Fin.val hi
    simp only at hv
    have h1 : q.get ⟨i₁.val, by omega⟩ = q.get ⟨i₂.val, by omega⟩ := by
      rw [← List.indexOf_get (List.indexOf_lt_length.mpr (hget i₁)),
        ← List.indexOf_get (List.indexOf_lt_length.mpr (hget i₂))]
      exact congrArg l.get (Fin.ext hv)
    have h2 := List.nodup_iff_injective_get.mp hqnd h1
    have hv2 : i₁.val = i₂.val := by simpa using h2
    exact Fin.ext hv2
  obtain ⟨cs, hcs⟩ := fyPerm_surjective l.length
    (Equiv.ofBijective _ (Finite.injective_iff_bijective.mp tinj))
  have hval : goShuffle l cs = q := by
    rw [goShuffle_eq_ofFn, hcs]
    apply List.ext_getElem
    · simp [hqlen]
    · intro i h1 h2
      rw [List.getElem_ofFn]
      have h3 : ∀ p : Fin l.length,
          l.get ((Equiv.ofBijective _ (Finite.injective_iff_bijective.mp tinj)) p) =
            q.get ⟨p.val, by omega⟩ := fun p =>
        List.indexOf_get (List.indexOf_lt_length.mpr (hget p))
      rw [h3 ⟨i, by simpa using h1⟩]
      rfl
  refine ⟨cs, hval, ?_⟩
  intro cs₂ hcs₂
  apply (fyPerm_bijective l.length).injective
  apply Equiv.ext
  intro p
  apply List.nodup_iff_injective_get.mp hl
  have h1 : goShuffle l cs₂ = goShuffle l cs := hcs₂.trans hval.symm
  rw [goShuffle_eq_ofFn, goShuffle_eq_ofFn] at h1
  exact congrFun (List.ofFn_inj.mp h1) p

theorem mem_take_ofFn_iff {α : Type} {n : Nat} (f : Fin n → α) (k : Nat) (x : α) :
    x ∈ (List.ofFn f).take k ↔ ∃ p : Fin n, p.val < k ∧ f p = x := by
  rw [List.mem_iff_getElem]
  constructor
  · rintro ⟨i, h, hx⟩
    have hlen : i < min k (List.ofFn f).length := by
      rw [← List.length_take]
      exact h
    rw [List.length_ofFn] at hlen
    obtain ⟨hik, hin⟩ := Nat.lt_min.mp hlen
    refine ⟨⟨i, hin⟩, hik, ?_⟩
    rw [← hx, List.getElem_take, List.getElem_ofFn]
  · rintro ⟨p, hk, hf⟩
    have hlen : p.val < (List.take k (List.ofFn f)).length := by
      simp only [List.length_take, List.length_ofFn]
      exact Nat.lt_min.mpr ⟨hk, p.isLt⟩
    refine ⟨p.val, hlen, ?_⟩
    rw [List.getElem_take, List.getElem_ofFn]
    exact hf

/-- number of draw sequences whose selection includes `x`; all `n!` draw
sequences are equally likely, so equal counts mean equal inclusion
probability -/
def inclusionCount (P : List String) (k : Nat) (x : String) : Nat :=
  (Finset.univ.filter fun cs : FYChoices P.length =>
    x ∈ selectRandomReviewers P k cs).card

theorem get_eq_iff_eq_mk_indexOf {α : Type} [DecidableEq α] (P : List α) (hnd : P.Nodup)
    (x : α) (hx : x ∈ P) (a : Fin P.length) :
    P.get a = x ↔ a = ⟨List.indexOf x P, List.indexOf_lt_length.mpr hx⟩ := by
  constructor
  · intro h
    apply List.nodup_iff_injective_get.mp hnd
    rw [h, List.indexOf_get (List.indexOf_lt_length.mpr hx)]
  · intro h
    rw [h, List.indexOf_get (List.indexOf_lt_length.mpr hx)]

theorem trans_swap_twice {β : Type} [DecidableEq β] (σ : Equiv.Perm β) (a b : β) :
    (σ.trans (Equiv.swap a b)).trans (Equiv.swap a b) = σ := by
  apply Equiv.ext
  intro x
  show Equiv.swap a b (Equiv.swap a b (σ x)) = σ x
  rw [Equiv.swap_apply_self]

theorem inclusionCount_eq_perm_count (P : List String) (k : Nat) (x : String)
    (hk : ¬ P.length ≤ k) :
    inclusionCount P k x = (Finset.univ.filter fun σ : Equiv.Perm (Fin P.length) =>
      ∃ p : Fin P.length, p.val < k ∧ P.get (σ p) = x).card := by
  have hmem : ∀ cs : FYChoices P.length, (x ∈ selectRandomReviewers P k cs ↔
      ∃ p : Fin P.length, p.val < k ∧ P.get (fyPerm cs p) = x) := by
    intro cs
    rw [selectRandomReviewers, if_neg hk, goShuffle_eq_ofFn]
    exact mem_take_ofFn_iff _ k x
  apply Finset.card_bij (fun cs _ => fyPerm cs)
  · intro cs hcs
    rw [Finset.mem_filter] at hcs ⊢
    exact ⟨Finset.mem_univ _, (hmem cs).mp hcs.2⟩
  · intro cs₁ _ cs₂ _ h
    exact (fyPerm_bijective P.length).injective h
  · intro σ hσ
    obtain ⟨cs, hcs⟩ := fyPerm_surjective P.length σ
    refine ⟨cs, ?_, hcs⟩
    rw [Finset.mem_filter] at hσ ⊢
    refine ⟨Finset.mem_univ _, (hmem cs).mpr ?_⟩
    rw [hcs]
    exact hσ.2

theorem perm_count_swap {α : Type} [DecidableEq α] (P : List α) (hnd : P.Nodup) (k : Nat)
    (x y : α) (hx : x ∈ P) (hy : y ∈ P) :
    (Finset.univ.filter fun σ : Equiv.Perm (Fin P.length) =>
      ∃ p : Fin P.length, p.val < k ∧ P.get (σ p) = x).card =
    (Finset.univ.filter fun σ : Equiv.Perm (Fin P.length) =>
      ∃ p : Fin P.length, p.val < k ∧ P.get (σ p) = y).card := by
  have hix := List.indexOf_lt_length.mpr hx
  have hiy := List.indexOf_lt_length.mpr hy
  apply Finset.card_bij (fun σ _ => σ.trans (Equiv.swap
    (⟨List.indexOf x P, hix⟩ : Fin P.length) ⟨List.indexOf y P, hiy⟩))
  · intro σ hσ
    rw [Finset.mem_filter] at hσ ⊢
    obtain ⟨p, hp, hget⟩ := hσ.2
    refine ⟨Finset.mem_univ _, p, hp, ?_⟩
    rw [get_eq_iff_eq_mk_indexOf P hnd x hx] at hget
    show P.get (Equiv.swap _ _ (σ p)) = y
    rw [hget, Equiv.swap_apply_left, List.indexOf_get hiy]
  · intro σ₁ _ σ₂ _ h
    have h2 := congrArg (fun τ => τ.trans (Equiv.swap
      (⟨List.indexOf x P, hix⟩ : Fin P.length) ⟨List.indexOf y P, hiy⟩)) h
    simpa only [trans_swap_twice] using h2
  · intro σ hσ
    rw [Finset.mem_filter] at hσ
    obtain ⟨p, hp, hget⟩ := hσ.2
    refine ⟨σ.trans (Equiv.swap
      (⟨List.indexOf x P, hix⟩ : Fin P.length) ⟨List.indexOf y P, hiy⟩), ?_, ?_⟩
    · rw [Finset.mem_filter]
      refine ⟨Finset.mem_univ _, p, hp, ?_⟩
      rw [get_eq_iff_eq_mk_indexOf P hnd y hy] at hget
      show P.get (Equiv.swap _ _ (σ p)) = x
      rw [hget, Equiv.swap_apply_right, List.indexOf_get hix]
    · exact trans_swap_twice σ _ _

/-- in the `|P| > k` regime each element of the pool is included for the
same number of draw sequences -/
theorem inclusionCount_uniform (P : List String) (hnd : P.Nodup) (k : Nat)
    (hk : ¬ P.length ≤ k) (x y : String) (hx : x ∈ P) (hy : y ∈ P) :
    inclusionCount P k x = inclusionCount P k y := by
  rw [inclusionCount_eq_perm_count P k x hk, inclusionCount_eq_perm_count P k y hk]
  exact perm_count_swap P hnd k x y hx hy

/-! ## Data model

The PostgreSQL tables of the migration file, as lists of rows.  `users`
carries its primary key `user_id INTEGER`; `pull_requests` stores
`author_id` as an integer and `merged_at` as a nullable timestamp;
`pr_reviewers` has primary key `(pull_request_id, reviewer_id)`.
Timestamps are modelled as `Nat`. -/

/-- a row of the `users` table -/
structure User where
  userId : Nat
  username : String
  teamName : String
  isActive : Bool
deriving DecidableEq

/-- a row of the `pull_requests` table -/
structure PRRow where
  pullRequestId : String
  pullRequestName : String
  authorId : Nat
  status : String
  createdAt : Nat
  mergedAt : Option Nat
deriving DecidableEq

/-- the database state: the four tables used by the services -/
structure DBState where
  teams : List String
  users : List User
  prs : List PRRow
  prReviewers : List (String × Nat)
deriving DecidableEq

/-- `models.PullRequest`: the service-level PR value, author id in the
external `uN` string form -/
structure PullRequest where
  pullRequestId : String
  pullRequestName : String
  authorID : String
  status : String
  createdAt : Nat
  mergedAt : Option Nat
deriving DecidableEq

/-- the typed errors of `internal/apperrors`, plus `duplicateKey` for a
postgres unique-constraint violation surfaced as a wrapped internal error -/
inductive AppError
  | prExists
  | prNotFound
  | prAuthorNotFound
  | prAlreadyMerged
  | reviewerNotAssigned
  | noReviewerCandidates
  | prIDRequired
  | prNameRequired
  | authorRequired
  | oldReviewerRequired
  | teamNotFound
  | teamNameRequired
  | duplicateKey
deriving DecidableEq

/-! ## Repository layer (`internal/repo/pullRequest.go`, `team.go`)

Each method is a function of the state; methods that write return the
post state as well, with the pre state on error (single statements are
atomic, multi-statement methods run in a transaction with
`defer tx.Rollback()`). -/

/-- `PRExists`: `SELECT COUNT(*) FROM pull_requests WHERE pull_request_id = $1` -/
def prExists (s : DBState) (prID : String) : Bool :=
  (s.prs.filter (fun r => r.pullRequestId == prID)).length > 0

/-- `GetPR`: select the row and format the stored author id as `uN` -/
def getPR (s : DBState) (prID : String) : Except AppError PullRequest :=
  match s.prs.find? (fun r => r.pullRequestId == prID) with
  | none => .error .prNotFound
  | some r => .ok ⟨r.pullRequestId, r.pullRequestName, formatUserID r.authorId,
      r.status, r.createdAt, r.mergedAt⟩

/-- the reviewer rows of a PR, formatted as `uN` strings
(`SELECT reviewer_id FROM pr_reviewers WHERE pull_request_id = $1`) -/
def getPRReviewerStrs (s : DBState) (prID : String) : List String :=
  (s.prReviewers.filter (fun r => r.1 == prID)).map (fun r => formatUserID r.2)

/-- `GetPRWithReviewers` -/
def getPRWithReviewers (s : DBState) (prID : String) :
    Except AppError (PullRequest × List String) :=
  match getPR s prID with
  | .error e => .error e
  | .ok pr => .ok (pr, getPRReviewerStrs s prID)

/-- `CreatePR`: scan the author id (`ErrAuthorRequired` on failure), then
`INSERT INTO pull_requests` (`ErrPRExists` on a duplicate primary key);
`merged_at` is not inserted, so it is NULL -/
def createPR (s : DBState) (pr : PullRequest) : Except AppError Unit × DBState :=
  match extractUserID pr.authorID with
  | none => (.error .authorRequired, s)
  | some aid =>
    if prExists s pr.pullRequestId then (.error .prExists, s)
    else (.ok (), { s with prs := s.prs ++
      [⟨pr.pullRequestId, pr.pullRequestName, aid, pr.status, pr.createdAt, none⟩] })

/-- the insert loop of `AddPRReviewers`: scan each reviewer id
(`ErrAuthorRequired` on failure), insert the pair (duplicate primary key
`(pull_request_id, reviewer_id)` is an error) -/
def addPRReviewersLoop (prID : String) :
    List String → List (String × Nat) → Except AppError (List (String × Nat))
  | [], rows => .ok rows
  | rev :: rest, rows =>
    match extractUserID rev with
    | none => .error .authorRequired
    | some rid =>
      if rows.any (fun r => r.1 == prID && r.2 == rid) then .error .duplicateKey
      else addPRReviewersLoop prID rest (rows ++ [(prID, rid)])

/-- `AddPRReviewers`: all inserts in one transaction, rollback on error -/
def addPRReviewers (s : DBState) (prID : String) (reviewerIDs : List String) :
    Except AppError Unit × DBState :=
  match addPRReviewersLoop prID reviewerIDs s.prReviewers with
  | .error e => (.error e, s)
  | .ok rows => (.ok (), { s with prReviewers := rows })

/-- `MergePR`: `UPDATE .. SET status = 'MERGED', merged_at = $1 WHERE
pull_request_id = $2 AND status != 'MERGED'`; when zero rows are affected,
the PR either exists (already merged: success) or is absent
(`ErrPRNotFound`) -/
def mergePR (s : DBState) (prID : String) (now : Nat) : Except AppError Unit × DBState :=
  let rowsAffected :=
    (s.prs.filter (fun r => r.pullRequestId == prID && r.status != "MERGED")).length
  if rowsAffected = 0 then
    if prExists s prID then (.ok (), s) else (.error .prNotFound, s)
  else
    (.ok (), { s with prs := s.prs.map (fun r =>
      if r.pullRequestId == prID && r.status != "MERGED" then
        { r with status := "MERGED", mergedAt := some now }
      else r) })

/-- `GetAuthorTeam`: scan the author id, then
`SELECT team_name FROM users WHERE user_id = $1`
(`ErrPRAuthorNotFound` when no row matches) -/
def getAuthorTeam (s : DBState) (authorID : String) : Except AppError String :=
  match extractUserID authorID with
  | none => .error .authorRequired
  | some aid =>
    match s.users.find? (fun u => u.userId == aid) with
    | none => .error .prAuthorNotFound
    | some u => .ok u.teamName

/-- `GetActiveTeamMembers`: select the active members of the team, format
each id as `uN`, and drop the ones in the exclusion set (compared as
strings) -/
def getActiveTeamMembers (s : DBState) (teamName : String)
    (excludeUserIDs : List String) : List String :=
  (((s.users.filter (fun u => u.teamName == teamName && u.isActive)).map
    (fun u => formatUserID u.userId)).filter
      (fun uid => !(excludeUserIDs.contains uid)))

/-- `ReplaceReviewer`: one transaction; the scan errors of the two ids are
discarded (`oldReviewerIDInt, _ := extractUserID(..)`, zero value on
failure); guard that the old reviewer is still assigned
(`ErrReviewerNotAssigned`), delete the old pair, insert the new pair
(duplicate key is an error), commit; every error rolls back -/
def replaceReviewer (s : DBState) (prID oldReviewerID newReviewerID : String) :
    Except AppError Unit × DBState :=
  let oldInt := (extractUserID oldReviewerID).getD 0
  let count := (s.prReviewers.filter (fun r => r.1 == prID && r.2 == oldInt)).length
  if count = 0 then (.error .reviewerNotAssigned, s)
  else
    let afterDelete := s.prReviewers.filter (fun r => !(r.1 == prID && r.2 == oldInt))
    let newInt := (extractUserID newReviewerID).getD 0
    if afterDelete.any (fun r => r.1 == prID && r.2 == newInt) then
      (.error .duplicateKey, s)
    else (.ok (), { s with prReviewers := afterDelete ++ [(prID, newInt)] })

/-- `TeamExists`: `SELECT COUNT(*) FROM teams WHERE team_name = $1` -/
def teamExists (s : DBState) (teamName : String) : Bool :=
  (s.teams.filter (fun t => t == teamName)).length > 0

/-- `DeactivateTeamUsers`: `UPDATE users SET is_active = false WHERE
team_name = $1 AND is_active = true`, returning the affected row count -/
def deactivateTeamUsers (s : DBState) (teamName : String) : Nat × DBState :=
  ((s.users.filter (fun u => u.teamName == teamName && u.isActive)).length,
    { s with users := s.users.map (fun u =>
      if u.teamName == teamName && u.isActive then { u with isActive := false } else u) })

/-! ## Statistics repository (`internal/repo/stats.go`) -/

/-- `models.PRStats`; the SQL float average is modelled exactly as a
rational -/
structure PRStats where
  totalPRs : Nat
  openPRs : Nat
  mergedPRs : Nat
  avgReviewersPerPR : Rat
deriving DecidableEq

/-- the row set of `FROM pull_requests pr LEFT JOIN pr_reviewers prr ON
pr.pull_request_id = prr.pull_request_id`: every PR appears, with one row
per matching reviewer, or a single row with NULL when it has none -/
def statsJoinRows (s : DBState) : List (PRRow × Option Nat) :=
  s.prs.flatMap (fun p =>
    let rs := s.prReviewers.filter (fun r => r.1 == p.pullRequestId)
    if rs.isEmpty then [(p, none)] else rs.map (fun r => (p, some r.2)))

/-- `GetPRStats`: two aggregate SELECTs; `COUNT(CASE WHEN status = .. THEN
1 END)` counts the matching rows, `COUNT(prr.reviewer_id)` counts the
non-NULL joined reviewer entries, `COUNT(DISTINCT pr.pull_request_id)`
counts the distinct PR ids in the join; a pure read, the state is
untouched -/
def getPRStats (s : DBState) : PRStats × DBState :=
  let totalPRs := s.prs.length
  let openPRs := (s.prs.filter (fun r => r.status == "OPEN")).length
  let mergedPRs := (s.prs.filter (fun r => r.status == "MERGED")).length
  let rows := statsJoinRows s
  let reviewerRowCount := (rows.filter (fun r => r.2.isSome)).length
  let distinctPRCount := ((rows.map (fun r => r.1.pullRequestId)).dedup).length
  let avg : Rat := if distinctPRCount = 0 then 0
    else (reviewerRowCount : Rat) / (distinctPRCount : Rat)
  (⟨totalPRs, openPRs, mergedPRs, avg⟩, s)

/-! ## Service layer (`internal/service/pullRequest.go`, `team.go`)

The random source is a tape assigning to every requested length a sequence
of bounded draws, which is what `rand.New(rand.NewSource(..))` provides to
`rand.Shuffle`. -/

/-- a pseudo-random source: draws for a shuffle of any requested length -/
def RandTape := (m : Nat) → FYChoices m

/-- `CreatePRWithReviewers`: validate the three required fields, check for
a duplicate PR id, resolve the author team, fetch the active team members
with the author excluded, fail with `ErrNoReviewerCandidates` on an empty
pool, pick up to 2 reviewers, persist the PR with status OPEN and the
current time, persist the reviewer set, and re-read the stored PR -/
def createPRWithReviewers (s : DBState) (pr : PullRequest) (tape : RandTape)
    (now : Nat) : Except AppError (PullRequest × List String) × DBState :=
  if pr.pullRequestId == "" then (.error .prIDRequired, s)
  else if pr.pullRequestName == "" then (.error .prNameRequired, s)
  else if pr.authorID == "" then (.error .authorRequired, s)
  else if prExists s pr.pullRequestId then (.error .prExists, s)
  else match getAuthorTeam s pr.authorID with
  | .error e => (.error e, s)
  | .ok teamName =>
    let teamMembers := getActiveTeamMembers s teamName [pr.authorID]
    if teamMembers.length = 0 then (.error .noReviewerCandidates, s)
    else
      let reviewers := selectRandomReviewers teamMembers 2 (tape teamMembers.length)
      match createPR s { pr with status := "OPEN", createdAt := now } with
      | (.error e, s₁) => (.error e, s₁)
      | (.ok _, s₁) =>
        match (if reviewers.length > 0 then addPRReviewers s₁ pr.pullRequestId reviewers
          else (.ok (), s₁)) with
        | (.error e, s₂) => (.error e, s₂)
        | (.ok _, s₂) =>
          match getPRWithReviewers s₂ pr.pullRequestId with
          | .error e => (.error e, s₂)
          | .ok res => (.ok res, s₂)

/-- service `MergePR`: require a non-blank id, run the conditional update,
then re-read the PR with its reviewers -/
def mergePRService (s : DBState) (prID : String) (now : Nat) :
    Except AppError (PullRequest × List String) × DBState :=
  if prID == "" then (.error .prIDRequired, s)
  else match mergePR s prID now with
  | (.error e, s₁) => (.error e, s₁)
  | (.ok _, s₁) =>
    match getPRWithReviewers s₁ prID with
    | .error e => (.error e, s₁)
    | .ok res => (.ok res, s₁)

/-- `ReassignReviewer`: validate both ids, load the PR with its reviewers,
refuse merged PRs (`ErrPRAlreadyMerged`), require the old reviewer to be
assigned, resolve the author team, fetch candidates excluding the current
reviewers and the author, refuse an empty pool, pick one replacement at
random, replace atomically, and re-read -/
def reassignReviewer (s : DBState) (prID oldReviewerID : String) (tape : RandTape) :
    Except AppError (PullRequest × List String × String) × DBState :=
  if prID == "" then (.error .prIDRequired, s)
  else if oldReviewerID == "" then (.error .oldReviewerRequired, s)
  else match getPRWithReviewers s prID with
  | .error e => (.error e, s)
  | .ok (pr, reviewers) =>
    if pr.status == "MERGED" then (.error .prAlreadyMerged, s)
    else if !(reviewers.contains oldReviewerID) then (.error .reviewerNotAssigned, s)
    else match getAuthorTeam s pr.authorID with
    | .error e => (.error e, s)
    | .ok teamName =>
      let exclude := reviewers ++ [pr.authorID]
      let availableMembers := getActiveTeamMembers s teamName exclude
      if availableMembers.length = 0 then (.error .noReviewerCandidates, s)
      else
        let newReviewer := selectRandomReviewer availableMembers
          (tape availableMembers.length)
        match replaceReviewer s prID oldReviewerID newReviewer with
        | (.error e, s₁) => (.error e, s₁)
        | (.ok _, s₁) =>
          match getPRWithReviewers s₁ prID with
          | .error e => (.error e, s₁)
          | .ok (updatedPR, updatedReviewers) =>
            (.ok (updatedPR, updatedReviewers, newReviewer), s₁)

/-- service `DeactivateTeamUsers`: require a non-blank name, check the
team exists (`ErrTeamNotFound`), then flip every active member -/
def deactivateTeamUsersService (s : DBState) (teamName : String) :
    Except AppError Nat × DBState :=
  if teamName == "" then (.error .teamNameRequired, s)
  else if !(teamExists s teamName) then (.error .teamNotFound, s)
  else
    let res := deactivateTeamUsers s teamName
    (.ok res.1, res.2)

/-! ## User service (`internal/service/user.go`)

`SetUserActiveStatus` and `GetUserReview` both run
`strconv.Atoi(userID[1:])`.  Go strings are byte strings and `userID[1:]`
slices bytes, panicking when `len(userID) < 1`; so the id is modelled as
its list of byte values.  The repository is abstracted as a provider
function; its failures surface as a wrapped error distinct from the
invalid-format error. -/

/-- a Go string as its byte values -/
abbrev GoStr := List Nat

/-- the observable outcomes of the two user-service methods -/
inductive UserSvcResult (α : Type)
  | panicked
  | invalidFormat
  | providerError
  | ok (a : α)
deriving DecidableEq

/-- numeric value of a run of decimal digit bytes -/
def digitsNatVal (ds : List Nat) : Nat := ds.foldl (fun a b => a * 10 + (b - 48)) 0

/-- `strconv.Atoi`, the digit part: the input after the optional leading
`+` (byte 43) or `-` (byte 45) -/
def atoiDigits (bs : List Nat) : List Nat :=
  if bs.head? = some 43 ∨ bs.head? = some 45 then bs.tail else bs

/-- `strconv.Atoi`, the sign: negative exactly when the first byte is `-` -/
def atoiNeg (bs : List Nat) : Bool := decide (bs.head? = some 45)

/-- `strconv.Atoi`, the signed value before the range check -/
def atoiSV (bs : List Nat) : Int :=
  if atoiNeg bs then -(digitsNatVal (atoiDigits bs) : Int)
  else (digitsNatVal (atoiDigits bs) : Int)

/-- `strconv.Atoi`: an optional sign, then at least one decimal digit
(bytes 48–57); the signed value must fit Go's 64-bit `int`, otherwise the
`ErrRange` failure is returned -/
def goAtoi (bs : List Nat) : Option Int :=
  if atoiDigits bs = [] then none
  else if ∀ b ∈ atoiDigits bs, 48 ≤ b ∧ b ≤ 57 then
    if atoiSV bs < -(2 ^ 63) ∨ (2 ^ 63 - 1 : Int) < atoiSV bs then none
    else some (atoiSV bs)
  else none

/-- `SetUserActiveStatus`: slice off the first byte (panic when empty),
parse the rest, call the provider -/
def setUserActiveStatus {α : Type} (provider : Bool → Int → Option α)
    (isActive : Bool) (userID : GoStr) : UserSvcResult α :=
  match userID with
  | [] => .panicked
  | _ :: rest =>
    match goAtoi rest with
    | none => .invalidFormat
    | some v =>
      match provider isActive v with
      | none => .providerError
      | some u => .ok u

/-- `GetUserReview`: same shape as `SetUserActiveStatus` -/
def getUserReview {α : Type} (provider : Int → Option α) (userID : GoStr) :
    UserSvcResult α :=
  match userID with
  | [] => .panicked
  | _ :: rest =>
    match goAtoi rest with
    | none => .invalidFormat
    | some v =>
      match provider v with
      | none => .providerError
      | some prs => .ok prs

/-- a non-empty run of decimal digit bytes -/
def DigitsOnly (ds : List Nat) : Prop := ¬ ds = [] ∧ ∀ b ∈ ds, 48 ≤ b ∧ b ≤ 57

instance (ds : List Nat) : Decidable (DigitsOnly ds) := by
  unfold DigitsOnly
  exact inferInstance

/-- the decimal-integer strings: an optional sign, then at least one
digit byte, denoting a value of Go's 64-bit `int` type (from `-2^63` to
`2^63 - 1`) -/
def IsGoInt (bs : List Nat) : Prop :=
  if bs.head? = some 43 then
    DigitsOnly bs.tail ∧ (digitsNatVal bs.tail : Int) ≤ 2 ^ 63 - 1
  else if bs.head? = some 45 then
    DigitsOnly bs.tail ∧ (digitsNatVal bs.tail : Int) ≤ 2 ^ 63
  else DigitsOnly bs ∧ (digitsNatVal bs : Int) ≤ 2 ^ 63 - 1

instance (bs : List Nat) : Decidable (IsGoInt bs) := by
  unfold IsGoInt
  exact inferInstance

/-! ## Concrete random tapes for witnesses -/

/-- the tape that always draws `j = i`: every swap is `swap(i, i)`, the
shuffle is the identity rearrangement -/
def idTape : RandTape := fun _ i => ⟨i.val, Nat.lt_succ_self i.val⟩

/-! ## Claim theorems -/

/-- C7: if the id, the name, or the author field of the PR-creation input
is blank, `CreatePRWithReviewers` fails with the `Required` error of the
first blank field (checked in the order id, name, author), before the
existence check or any write, and the state is unchanged (the conclusion
holds for every state, in particular for states already containing the
id). -/
theorem claim_C7_create_validation (s : DBState) (pr : PullRequest) (tape : RandTape)
    (now : Nat)
    (h : pr.pullRequestId = "" ∨ pr.pullRequestName = "" ∨ pr.authorID = "") :
    createPRWithReviewers s pr tape now =
      (.error (if pr.pullRequestId = "" then .prIDRequired
        else if pr.pullRequestName = "" then .prNameRequired
        else .authorRequired), s) := by
  by_cases h1 : pr.pullRequestId = ""
  · simp [createPRWithReviewers, h1]
  · by_cases h2 : pr.pullRequestName = ""
    · simp [createPRWithReviewers, h1, h2]
    · have h3 : pr.authorID = "" := by tauto
      simp [createPRWithReviewers, h1, h2, h3]

/-- witness for C7 at a concrete input: blank name (id present), on a
state already containing a PR, still yields the name-specific error and
leaves the state unchanged -/
theorem claim_C7_create_validation_witness :
    (("PR-1" : String) = "" ∨ ("" : String) = "" ∨ ("u1" : String) = "") ∧
    createPRWithReviewers
      ⟨["Backend"], [⟨1, "Alice", "Backend", true⟩],
        [⟨"PR-1", "old", 1, "OPEN", 0, none⟩], []⟩
      ⟨"PR-1", "", "u1", "", 0, none⟩ idTape 7 =
      (.error .prNameRequired,
        ⟨["Backend"], [⟨1, "Alice", "Backend", true⟩],
          [⟨"PR-1", "old", 1, "OPEN", 0, none⟩], []⟩) := by
  refine ⟨Or.inr (Or.inl rfl), ?_⟩
  have h := claim_C7_create_validation
    ⟨["Backend"], [⟨1, "Alice", "Backend", true⟩],
      [⟨"PR-1", "old", 1, "OPEN", 0, none⟩], []⟩
    ⟨"PR-1", "", "u1", "", 0, none⟩ idTape 7 (Or.inr (Or.inl rfl))
  simpa using h

/-- C5: on a PR whose stored status is MERGED, `ReassignReviewer` (for any
non-blank ids) always fails with `ErrPRAlreadyMerged` and leaves the state
untouched; no hypothesis about the old reviewer being assigned is needed,
because the merged-status check is decided before the membership check. -/
theorem claim_C5_reassign_merged (s : DBState) (prID oldReviewerID : String)
    (tape : RandTape) (pr : PullRequest) (revs : List String)
    (hprID : ¬ prID = "") (hold : ¬ oldReviewerID = "")
    (hload : getPRWithReviewers s prID = .ok (pr, revs))
    (hmerged : pr.status = "MERGED") :
    reassignReviewer s prID oldReviewerID tape = (.error .prAlreadyMerged, s) := by
  unfold reassignReviewer
  rw [if_neg (by simpa using hprID), if_neg (by simpa using hold), hload]
  simp [hmerged]

/-- witness for C5: a merged PR whose reviewer set does not contain the
named old reviewer still yields `ErrPRAlreadyMerged` -/
theorem claim_C5_reassign_merged_witness :
    getPRWithReviewers
      ⟨["Backend"], [⟨1, "Alice", "Backend", true⟩],
        [⟨"PR-1", "Fix", 1, "MERGED", 0, some 3⟩], []⟩ "PR-1" =
      .ok (⟨"PR-1", "Fix", "u1", "MERGED", 0, some 3⟩, []) ∧
    reassignReviewer
      ⟨["Backend"], [⟨1, "Alice", "Backend", true⟩],
        [⟨"PR-1", "Fix", 1, "MERGED", 0, some 3⟩], []⟩ "PR-1" "u9" idTape =
      (.error .prAlreadyMerged,
        ⟨["Backend"], [⟨1, "Alice", "Backend", true⟩],
          [⟨"PR-1", "Fix", 1, "MERGED", 0, some 3⟩], []⟩) := by
  refine ⟨by decide, ?_⟩
  exact claim_C5_reassign_merged _ "PR-1" "u9" idTape
    ⟨"PR-1", "Fix", "u1", "MERGED", 0, some 3⟩ [] (by decide) (by decide)
    (by decide) rfl

/-! ### Helper facts about the PR table -/

theorem prExists_iff (s : DBState) (prID : String) :
    prExists s prID = true ↔ ∃ r ∈ s.prs, r.pullRequestId = prID := by
  unfold prExists
  rw [decide_eq_true_iff]
  constructor
  · intro h
    obtain ⟨r, hr⟩ := List.length_pos_iff_exists_mem.mp h
    rw [List.mem_filter] at hr
    exact ⟨r, hr.1, by simpa using hr.2⟩
  · rintro ⟨r, hr, hid⟩
    exact List.length_pos_iff_exists_mem.mpr
      ⟨r, List.mem_filter.mpr ⟨hr, by simpa using hid⟩⟩

theorem prExists_false_iff (s : DBState) (prID : String) :
    prExists s prID = false ↔ ∀ r ∈ s.prs, ¬ r.pullRequestId = prID := by
  constructor
  · intro h r hr hid
    have h2 : ¬ prExists s prID = true := by
      rw [h]
      decide
    exact h2 ((prExists_iff s prID).mpr ⟨r, hr, hid⟩)
  · intro hall
    rw [← Bool.not_eq_true, prExists_iff]
    rintro ⟨r, hr, hid⟩
    exact hall r hr hid

theorem getPRWithReviewers_ok_of_exists (s : DBState) (prID : String)
    (hex : prExists s prID = true) :
    ∃ pr revs, getPRWithReviewers s prID = .ok (pr, revs) ∧ ∃ r ∈ s.prs,
      r.pullRequestId = prID ∧ pr.status = r.status ∧ pr.mergedAt = r.mergedAt := by
  obtain ⟨r, hr, hid⟩ := (prExists_iff s prID).mp hex
  have hsome : (s.prs.find? (fun r => r.pullRequestId == prID)).isSome := by
    rw [List.find?_isSome]
    exact ⟨r, hr, by simpa using hid⟩
  obtain ⟨r₀, hr₀⟩ := Option.isSome_iff_exists.mp hsome
  refine ⟨⟨r₀.pullRequestId, r₀.pullRequestName, formatUserID r₀.authorId, r₀.status,
    r₀.createdAt, r₀.mergedAt⟩, getPRReviewerStrs s prID, ?_, r₀,
    List.mem_of_find?_eq_some hr₀, by simpa using List.find?_some hr₀, rfl, rfl⟩
  unfold getPRWithReviewers getPR
  rw [hr₀]

theorem mergePR_ok_of_exists (s : DBState) (prID : String) (t : Nat)
    (hex : prExists s prID = true) :
    ∃ s₁, mergePR s prID t = (.ok (), s₁) ∧ prExists s₁ prID = true ∧
      (∀ r ∈ s₁.prs, r.pullRequestId = prID → r.status = "MERGED") := by
  unfold mergePR
  by_cases h0 :
      (s.prs.filter (fun r => r.pullRequestId == prID && r.status != "MERGED")).length = 0
  · refine ⟨s, by rw [if_pos h0, if_pos hex], hex, ?_⟩
    intro r hr hid
    have hnil := List.length_eq_zero.mp h0
    have := List.filter_eq_nil_iff.mp hnil r hr
    simp only [Bool.and_eq_true, beq_iff_eq, bne_iff_ne, ne_eq, not_and, not_not] at this
    exact this hid
  · rw [if_neg h0]
    refine ⟨_, rfl, ?_, ?_⟩
    · rw [prExists_iff]
      obtain ⟨r, hr, hid⟩ := (prExists_iff s prID).mp hex
      refine ⟨if r.pullRequestId == prID && r.status != "MERGED" then
        { r with status := "MERGED", mergedAt := some t } else r, ?_, ?_⟩
      · exact List.mem_map.mpr ⟨r, hr, rfl⟩
      · by_cases hc : r.pullRequestId == prID && r.status != "MERGED"
        · rw [if_pos hc]
          exact hid
        · rw [if_neg hc]
          exact hid
    · intro r hr hid
      obtain ⟨r₀, hr₀, hmap⟩ := List.mem_map.mp hr
      by_cases hc : r₀.pullRequestId == prID && r₀.status != "MERGED"
      · rw [if_pos hc] at hmap
        rw [← hmap]
      · rw [if_neg hc] at hmap
        simp only [Bool.and_eq_true, beq_iff_eq, bne_iff_ne, ne_eq, not_and, not_not] at hc
        rw [← hmap] at hid ⊢
        exact hc hid

theorem mergePR_noop (s : DBState) (prID : String) (t : Nat)
    (hex : prExists s prID = true)
    (hall : ∀ r ∈ s.prs, r.pullRequestId = prID → r.status = "MERGED") :
    mergePR s prID t = (.ok (), s) := by
  unfold mergePR
  have h0 : (s.prs.filter (fun r => r.pullRequestId == prID && r.status != "MERGED")) = [] := by
    rw [List.filter_eq_nil_iff]
    intro r hr
    simp only [Bool.and_eq_true, beq_iff_eq, bne_iff_ne, ne_eq, not_and, not_not]
    exact hall r hr
  rw [h0]
  simp [hex]

/-- C4: merging is idempotent: for every existing PR (blank ids aside) the
first merge succeeds, and a second merge at any later time also succeeds,
returns exactly the same PR value (same status MERGED and same merged
timestamp) and the same reviewer list, and leaves the state exactly as
after the first call; the conditional update matches zero rows the second
time while the separate existence check confirms the PR. -/
theorem claim_C4_merge_idempotent (s : DBState) (prID : String) (t₁ t₂ : Nat)
    (hid : ¬ prID = "") (hex : prExists s prID = true) :
    ∃ pr₁ revs₁ s₁,
      mergePRService s prID t₁ = (.ok (pr₁, revs₁), s₁) ∧
      mergePRService s₁ prID t₂ = (.ok (pr₁, revs₁), s₁) ∧
      pr₁.status = "MERGED" := by
  obtain ⟨s₁, hm, hex₁, hall⟩ := mergePR_ok_of_exists s prID t₁ hex
  obtain ⟨pr₁, revs₁, hread, r, hr, hrid, hrstat, _⟩ :=
    getPRWithReviewers_ok_of_exists s₁ prID hex₁
  refine ⟨pr₁, revs₁, s₁, ?_, ?_, ?_⟩
  · unfold mergePRService
    rw [if_neg (by simpa using hid), hm]
    dsimp only
    rw [hread]
  · unfold mergePRService
    rw [if_neg (by simpa using hid), mergePR_noop s₁ prID t₂ hex₁ hall]
    dsimp only
    rw [hread]
  · rw [hrstat]
    exact hall r hr hrid

/-- witness for C4 at a concrete open PR: both calls succeed, return the
identical merged PR (timestamp of the first call), and the state is stable -/
theorem claim_C4_merge_idempotent_witness :
    (¬ ("PR-1" : String) = "") ∧
    prExists ⟨["Backend"], [⟨1, "Alice", "Backend", true⟩],
      [⟨"PR-1", "Fix", 1, "OPEN", 0, none⟩], []⟩ "PR-1" = true ∧
    (∃ pr₁ revs₁ s₁,
      mergePRService ⟨["Backend"], [⟨1, "Alice", "Backend", true⟩],
        [⟨"PR-1", "Fix", 1, "OPEN", 0, none⟩], []⟩ "PR-1" 5 = (.ok (pr₁, revs₁), s₁) ∧
      mergePRService s₁ "PR-1" 9 = (.ok (pr₁, revs₁), s₁) ∧
      pr₁.status = "MERGED") :=
  ⟨by decide, by decide,
    claim_C4_merge_idempotent
      ⟨["Backend"], [⟨1, "Alice", "Backend", true⟩],
        [⟨"PR-1", "Fix", 1, "OPEN", 0, none⟩], []⟩ "PR-1" 5 9 (by decide) (by decide)⟩

/-- C8: `DeactivateTeamUsers` on an absent team fails with `NotFound` and
changes nothing; on an existing team it returns the number of members that
were active, changes exactly those members (the `isActive` flag of every
user becomes `old value && not in this team`, all other fields and tables
untouched), and an immediately repeated call succeeds with count 0 and
changes no user. -/
theorem claim_C8_deactivate (s : DBState) (teamName : String) (hname : ¬ teamName = "") :
    (teamExists s teamName = false →
      deactivateTeamUsersService s teamName = (.error .teamNotFound, s)) ∧
    (teamExists s teamName = true →
      ∃ s₁, deactivateTeamUsersService s teamName =
          (.ok (s.users.filter (fun u => u.teamName == teamName && u.isActive)).length,
            s₁) ∧
        s₁.teams = s.teams ∧ s₁.prs = s.prs ∧ s₁.prReviewers = s.prReviewers ∧
        s₁.users.length = s.users.length ∧
        (∀ (i : Nat) (hi : i < s.users.length) (hi' : i < s₁.users.length),
          (s₁.users.get ⟨i, hi'⟩).userId = (s.users.get ⟨i, hi⟩).userId ∧
          (s₁.users.get ⟨i, hi'⟩).username = (s.users.get ⟨i, hi⟩).username ∧
          (s₁.users.get ⟨i, hi'⟩).teamName = (s.users.get ⟨i, hi⟩).teamName ∧
          (s₁.users.get ⟨i, hi'⟩).isActive =
            ((s.users.get ⟨i, hi⟩).isActive &&
              !((s.users.get ⟨i, hi⟩).teamName == teamName))) ∧
        deactivateTeamUsersService s₁ teamName = (.ok 0, s₁)) := by
  constructor
  · intro habs
    unfold deactivateTeamUsersService
    rw [if_neg (by simpa using hname), habs]
    rfl
  · intro hex
    refine ⟨{ s with users := s.users.map (fun u =>
      if u.teamName == teamName && u.isActive then { u with isActive := false }
      else u) }, ?_, rfl, rfl, rfl, by simp, ?_, ?_⟩
    · unfold deactivateTeamUsersService deactivateTeamUsers
      rw [if_neg (by simpa using hname), hex]
      rfl
    · intro i hi hi'
      have hg : (s.users.map (fun u =>
          if u.teamName == teamName && u.isActive then { u with isActive := false }
          else u)).get ⟨i, hi'⟩ =
          (fun u => if u.teamName == teamName && u.isActive then
            { u with isActive := false } else u) (s.users.get ⟨i, hi⟩) := by
        simp [List.get_eq_getElem, List.getElem_map]
      rw [hg]
      dsimp only
      obtain ⟨u, hu⟩ : ∃ u, s.users.get ⟨i, hi⟩ = u := ⟨_, rfl⟩
      rw [hu]
      cases htm : (u.teamName == teamName) <;> cases hac : u.isActive <;>
        simp [htm, hac]
    · have hnone : ∀ u ∈ s.users.map (fun u =>
          if u.teamName == teamName && u.isActive then { u with isActive := false }
          else u), ¬ (u.teamName == teamName && u.isActive) = true := by
        intro u hu
        obtain ⟨u₀, hu₀, hmap⟩ := List.mem_map.mp hu
        by_cases hc : u₀.teamName == teamName && u₀.isActive
        · rw [if_pos hc] at hmap
          rw [← hmap]
          simp
        · rw [if_neg hc] at hmap
          rw [← hmap]
          exact hc
      have hfilter : ((s.users.map (fun u =>
          if u.teamName == teamName && u.isActive then { u with isActive := false }
          else u)).filter (fun u => u.teamName == teamName && u.isActive)) = [] :=
        List.filter_eq_nil_iff.mpr hnone
      have hmapid : (s.users.map (fun u =>
          if u.teamName == teamName && u.isActive then { u with isActive := false }
          else u)).map (fun u =>
          if u.teamName == teamName && u.isActive then { u with isActive := false }
          else u) = s.users.map (fun u =>
          if u.teamName == teamName && u.isActive then { u with isActive := false }
          else u) := by
        conv_rhs => rw [← List.map_id (s.users.map _)]
        apply List.map_congr_left
        intro u hu
        rw [if_neg (hnone u hu)]
        rfl
      unfold deactivateTeamUsersService deactivateTeamUsers
      rw [if_neg (by simpa using hname)]
      have hex₁ : teamExists { s with users := s.users.map (fun u =>
          if u.teamName == teamName && u.isActive then { u with isActive := false }
          else u) } teamName = true := hex
      rw [hex₁]
      simp only [hfilter, hmapid, List.length_nil]
      rfl

/-- witness for C8 at a concrete team with one active member, one already
inactive member, and one member of another team -/
theorem claim_C8_deactivate_witness :
    (¬ ("Backend" : String) = "") ∧
    (teamExists ⟨["Backend", "QA"],
      [⟨1, "Alice", "Backend", true⟩, ⟨2, "Bob", "Backend", false⟩,
        ⟨3, "Carol", "QA", true⟩], [], []⟩ "Backend" = true) ∧
    (∃ s₁, deactivateTeamUsersService ⟨["Backend", "QA"],
        [⟨1, "Alice", "Backend", true⟩, ⟨2, "Bob", "Backend", false⟩,
          ⟨3, "Carol", "QA", true⟩], [], []⟩ "Backend" = (.ok 1, s₁) ∧
      deactivateTeamUsersService s₁ "Backend" = (.ok 0, s₁)) := by
  refine ⟨by decide, by decide, ?_⟩
  have h := (claim_C8_deactivate ⟨["Backend", "QA"],
    [⟨1, "Alice", "Backend", true⟩, ⟨2, "Bob", "Backend", false⟩,
      ⟨3, "Carol", "QA", true⟩], [], []⟩ "Backend" (by decide)).2 (by decide)
  obtain ⟨s₁, h1, _, _, _, _, _, h2⟩ := h
  exact ⟨s₁, by simpa using h1, h2⟩

/-- zeta-reduced form of `ReplaceReviewer` -/
theorem replaceReviewer_eq (s : DBState) (prID oldR newR : String) :
    replaceReviewer s prID oldR newR =
      (if (s.prReviewers.filter (fun r =>
          r.1 == prID && r.2 == (extractUserID oldR).getD 0)).length = 0 then
        (.error .reviewerNotAssigned, s)
      else if (s.prReviewers.filter (fun r =>
          !(r.1 == prID && r.2 == (extractUserID oldR).getD 0))).any (fun r =>
            r.1 == prID && r.2 == (extractUserID newR).getD 0) then
        (.error .duplicateKey, s)
      else (.ok (), { s with prReviewers := (s.prReviewers.filter (fun r =>
        !(r.1 == prID && r.2 == (extractUserID oldR).getD 0))) ++
          [(prID, (extractUserID newR).getD 0)] })) := rfl

theorem pair_pred_iff (a : String) (b : Nat) (r : String × Nat) :
    (r.1 == a && r.2 == b) = true ↔ r = (a, b) := by
  rw [Bool.and_eq_true, beq_iff_eq, beq_iff_eq]
  constructor
  · rintro ⟨h1, h2⟩
    exact Prod.ext h1 h2
  · rintro rfl
    exact ⟨rfl, rfl⟩

theorem pair_filter_len_zero_iff (l : List (String × Nat)) (a : String) (b : Nat) :
    ((l.filter (fun r => r.1 == a && r.2 == b)).length = 0) ↔ ¬ (a, b) ∈ l := by
  rw [List.length_eq_zero, List.filter_eq_nil_iff]
  constructor
  · intro h hm
    exact absurd ((pair_pred_iff a b _).mpr rfl) (h _ hm)
  · intro h r hr hc
    exact h (((pair_pred_iff a b r).mp hc) ▸ hr)

/-- C6: the reviewer-replacement write of the repository is guarded and
rolls back as a unit: when the old reviewer is not assigned to the PR it
fails with `ErrReviewerNotAssigned`; on every failure the stored state is
exactly the pre state; and on success the reviewer relation is the old one
with the pair `(prID, old)` removed and `(prID, new)` inserted, all other
rows and tables untouched. -/
theorem claim_C6_replace_guarded (s : DBState) (prID oldR newR : String) :
    (¬ (prID, (extractUserID oldR).getD 0) ∈ s.prReviewers →
      replaceReviewer s prID oldR newR = (.error .reviewerNotAssigned, s)) ∧
    (∀ (e : AppError) (s' : DBState),
      replaceReviewer s prID oldR newR = (.error e, s') → s' = s) ∧
    (∀ s' : DBState, replaceReviewer s prID oldR newR = (.ok (), s') →
      (prID, (extractUserID oldR).getD 0) ∈ s.prReviewers ∧
      s'.teams = s.teams ∧ s'.users = s.users ∧ s'.prs = s.prs ∧
      (prID, (extractUserID newR).getD 0) ∈ s'.prReviewers ∧
      (∀ p : String × Nat, ¬ p = (prID, (extractUserID oldR).getD 0) →
        ¬ p = (prID, (extractUserID newR).getD 0) →
        (p ∈ s'.prReviewers ↔ p ∈ s.prReviewers)) ∧
      (¬ (extractUserID oldR).getD 0 = (extractUserID newR).getD 0 →
        ¬ (prID, (extractUserID oldR).getD 0) ∈ s'.prReviewers)) := by
  refine ⟨?_, ?_, ?_⟩
  · intro hnot
    rw [replaceReviewer_eq,
      if_pos ((pair_filter_len_zero_iff s.prReviewers prID _).mpr hnot)]
  · intro e s' h
    rw [replaceReviewer_eq] at h
    split_ifs at h with h1 h2
    · exact (Prod.mk.inj h).2.symm
    · exact (Prod.mk.inj h).2.symm
    · exact absurd (Prod.mk.inj h).1 (fun hc => Except.noConfusion hc)
  · intro s' h
    rw [replaceReviewer_eq] at h
    split_ifs at h with h1 h2
    · exact absurd (Prod.mk.inj h).1 (fun hc => Except.noConfusion hc)
    · exact absurd (Prod.mk.inj h).1 (fun hc => Except.noConfusion hc)
    · obtain ⟨-, hs⟩ := Prod.mk.inj h
      rw [← hs]
      refine ⟨?_, rfl, rfl, rfl, ?_, ?_, ?_⟩
      · by_contra hc
        exact h1 ((pair_filter_len_zero_iff s.prReviewers prID _).mpr hc)
      · exact List.mem_append.mpr (Or.inr (List.mem_singleton.mpr rfl))
      · intro p hpold hpnew
        rw [List.mem_append, List.mem_singleton]
        constructor
        · rintro (hp | hp)
          · exact (List.mem_filter.mp hp).1
          · exact absurd hp hpnew
        · intro hp
          refine Or.inl (List.mem_filter.mpr ⟨hp, ?_⟩)
          rw [Bool.not_eq_true']
          cases hb : (p.1 == prID && p.2 == (extractUserID oldR).getD 0)
          · rfl
          · exact absurd ((pair_pred_iff _ _ p).mp hb) hpold
      · intro hne hc
        rcases List.mem_append.mp hc with hp | hp
        · have hfalse := (List.mem_filter.mp hp).2
          rw [Bool.not_eq_eq_eq_not, Bool.not_true] at hfalse
          have h3 := (pair_pred_iff prID ((extractUserID oldR).getD 0)
            (prID, (extractUserID oldR).getD 0)).mpr rfl
          rw [hfalse] at h3
          exact Bool.noConfusion h3
        · rw [List.mem_singleton] at hp
          exact hne (congrArg Prod.snd hp)

/-- witness for C6 at a concrete relation: replacing assigned reviewer u2
with u9 on PR-1 succeeds, u9 is now assigned, u2 no longer is, and the
unrelated row survives -/
theorem claim_C6_replace_guarded_witness :
    replaceReviewer ⟨[], [], [], [("PR-1", 2), ("PR-1", 3)]⟩ "PR-1" "u2" "u9" =
      (.ok (), ⟨[], [], [], [("PR-1", 3), ("PR-1", 9)]⟩) ∧
    ("PR-1", (extractUserID "u9").getD 0) ∈
      (⟨[], [], [], [("PR-1", 3), ("PR-1", 9)]⟩ : DBState).prReviewers ∧
    ¬ ("PR-1", (extractUserID "u2").getD 0) ∈
      (⟨[], [], [], [("PR-1", 3), ("PR-1", 9)]⟩ : DBState).prReviewers := by
  refine ⟨by decide, ?_, ?_⟩
  · exact ((claim_C6_replace_guarded ⟨[], [], [], [("PR-1", 2), ("PR-1", 3)]⟩
      "PR-1" "u2" "u9").2.2 _ (by decide)).2.2.2.2.1
  · exact ((claim_C6_replace_guarded ⟨[], [], [], [("PR-1", 2), ("PR-1", 3)]⟩
      "PR-1" "u2" "u9").2.2 _ (by decide)).2.2.2.2.2.2 (by decide)

/-! ### Counting helpers for the statistics aggregates -/

theorem list_sum_map_add {α : Type} (l : List α) (f g : α → Nat) :
    (l.map (fun x => f x + g x)).sum = (l.map f).sum + (l.map g).sum := by
  induction l with
  | nil => rfl
  | cons a t ih =>
    simp only [List.map_cons, List.sum_cons, ih]
    omega

theorem list_sum_map_ite_eq_countP {α : Type} (l : List α) (p : α → Bool) :
    (l.map (fun x => if p x then 1 else 0)).sum = l.countP p := by
  induction l with
  | nil => rfl
  | cons a t ih =>
    rw [List.map_cons, List.sum_cons, List.countP_cons, ih]
    by_cases h : p a
    · simp [h]
      omega
    · simp [h]

theorem beq_comm_str (a b : String) : (a == b) = (b == a) := by
  by_cases h : a = b
  · rw [h]
  · have h1 : (a == b) = false := by simpa using h
    have h2 : (b == a) = false := by simpa using fun hc => h hc.symm
    rw [h1, h2]

/-- double counting: when every reviewer row matches exactly one PR, the
per-PR match counts sum to the number of rows -/
theorem sum_filter_counts_eq_length (prs : List PRRow) (rows : List (String × Nat))
    (huniq : ∀ rv ∈ rows, (prs.countP (fun p => rv.1 == p.pullRequestId)) = 1) :
    (prs.map (fun p => (rows.filter (fun rv => rv.1 == p.pullRequestId)).length)).sum
      = rows.length := by
  induction rows with
  | nil => simp
  | cons rv rest ih =>
    have hrest : ∀ rv' ∈ rest, (prs.countP (fun p => rv'.1 == p.pullRequestId)) = 1 :=
      fun rv' h => huniq rv' (List.mem_cons_of_mem rv h)
    have hstep : ∀ p ∈ prs,
        ((rv :: rest).filter (fun rv' => rv'.1 == p.pullRequestId)).length =
          (if rv.1 == p.pullRequestId then 1 else 0) +
            (rest.filter (fun rv' => rv'.1 == p.pullRequestId)).length := by
      intro p _
      rw [List.filter_cons]
      by_cases hc : rv.1 == p.pullRequestId
      · rw [if_pos hc, if_pos hc, List.length_cons]
        omega
      · rw [if_neg hc, if_neg hc]
        omega
    rw [List.map_congr_left hstep, list_sum_map_add,
      list_sum_map_ite_eq_countP prs (fun p => rv.1 == p.pullRequestId),
      huniq rv (List.mem_cons_self rv rest), ih hrest, List.length_cons]
    omega

theorem countP_id_eq_one (prs : List PRRow) (hnd : (prs.map (fun r => r.pullRequestId)).Nodup)
    (x : String) (hx : ∃ r ∈ prs, r.pullRequestId = x) :
    prs.countP (fun p => x == p.pullRequestId) = 1 := by
  have hmem : x ∈ prs.map (fun r => r.pullRequestId) := by
    obtain ⟨r, hr, hid⟩ := hx
    exact List.mem_map.mpr ⟨r, hr, hid⟩
  have hcount := List.count_eq_one_of_mem hnd hmem
  rw [List.count, List.countP_map] at hcount
  rw [← hcount]
  apply List.countP_congr
  intro p _
  exact (beq_comm_str x p.pullRequestId).symm ▸ Iff.rfl

/-- the non-NULL entries of the LEFT JOIN are exactly the reviewer rows -/
theorem statsJoin_reviewer_count (s : DBState)
    (hnd : (s.prs.map (fun r => r.pullRequestId)).Nodup)
    (hfk : ∀ rv ∈ s.prReviewers, ∃ r ∈ s.prs, r.pullRequestId = rv.1) :
    ((statsJoinRows s).filter (fun r => r.2.isSome)).length = s.prReviewers.length := by
  unfold statsJoinRows
  rw [List.filter_flatMap, List.length_flatMap]
  have hper : ∀ p ∈ s.prs, (List.length ∘ (fun p =>
      List.filter (fun r => r.2.isSome)
        (if (s.prReviewers.filter (fun r => r.1 == p.pullRequestId)).isEmpty then
          [(p, (none : Option Nat))]
        else (s.prReviewers.filter (fun r => r.1 == p.pullRequestId)).map
          (fun r => (p, some r.2))))) p =
      (s.prReviewers.filter (fun rv => rv.1 == p.pullRequestId)).length := by
    intro p _
    simp only [Function.comp_apply]
    by_cases hc : (s.prReviewers.filter (fun r => r.1 == p.pullRequestId)).isEmpty
    · rw [if_pos hc]
      rw [List.isEmpty_iff] at hc
      rw [hc]
      rfl
    · rw [if_neg hc]
      have hall : ∀ a ∈ (s.prReviewers.filter (fun r => r.1 == p.pullRequestId)).map
          (fun r => (p, some r.2)), (fun r => r.2.isSome) a = true := by
        intro a ha
        obtain ⟨r, _, hr⟩ := List.mem_map.mp ha
        rw [← hr]
        rfl
      rw [List.filter_eq_self.mpr hall, List.length_map]
  rw [List.map_congr_left hper]
  exact sum_filter_counts_eq_length s.prs s.prReviewers
    (fun rv hrv => countP_id_eq_one s.prs hnd rv.1 (hfk rv hrv))

/-- the LEFT JOIN mentions exactly the PR ids of the table -/
theorem statsJoin_distinct_count (s : DBState)
    (hnd : (s.prs.map (fun r => r.pullRequestId)).Nodup) :
    ((statsJoinRows s).map (fun r => r.1.pullRequestId)).dedup.length = s.prs.length := by
  rw [← List.card_toFinset]
  have hset : ((statsJoinRows s).map (fun r => r.1.pullRequestId)).toFinset =
      (s.prs.map (fun r => r.pullRequestId)).toFinset := by
    ext x
    simp only [List.mem_toFinset, List.mem_map]
    constructor
    · rintro ⟨row, hrow, hx⟩
      unfold statsJoinRows at hrow
      obtain ⟨p, hp, hmem⟩ := List.mem_flatMap.mp hrow
      by_cases hc : (s.prReviewers.filter (fun r => r.1 == p.pullRequestId)).isEmpty
      · rw [if_pos hc, List.mem_singleton] at hmem
        exact ⟨p, hp, by rw [← hx, hmem]⟩
      · rw [if_neg hc] at hmem
        obtain ⟨r, _, hr⟩ := List.mem_map.mp hmem
        exact ⟨p, hp, by rw [← hx, ← hr]⟩
    · rintro ⟨p, hp, hx⟩
      by_cases hc : (s.prReviewers.filter (fun r => r.1 == p.pullRequestId)).isEmpty
      · refine ⟨(p, none), ?_, hx⟩
        unfold statsJoinRows
        exact List.mem_flatMap.mpr ⟨p, hp, by rw [if_pos hc]; exact List.mem_singleton.mpr rfl⟩
      · obtain ⟨r, hr⟩ := List.exists_mem_of_ne_nil
          (s.prReviewers.filter (fun r => r.1 == p.pullRequestId)) (by
            intro hnil
            exact hc (by rw [hnil]; rfl))
        refine ⟨(p, some r.2), ?_, hx⟩
        unfold statsJoinRows
        exact List.mem_flatMap.mpr ⟨p, hp,
          by rw [if_neg hc]; exact List.mem_map.mpr ⟨r, hr, rfl⟩⟩
  rw [hset, List.card_toFinset, List.Nodup.dedup hnd, List.length_map]

theorem count_open_add_merged (l : List PRRow)
    (hstatus : ∀ r ∈ l, r.status = "OPEN" ∨ r.status = "MERGED") :
    (l.filter (fun r => r.status == "OPEN")).length +
      (l.filter (fun r => r.status == "MERGED")).length = l.length := by
  induction l with
  | nil => rfl
  | cons r t ih =>
    have ht : ∀ r' ∈ t, r'.status = "OPEN" ∨ r'.status = "MERGED" :=
      fun r' h => hstatus r' (List.mem_cons_of_mem r h)
    rw [List.filter_cons, List.filter_cons]
    have IH := ih ht
    rcases hstatus r (List.mem_cons_self r t) with h | h
    · rw [if_pos (by simpa using h), if_neg (by simp [h]), List.length_cons, List.length_cons]
      omega
    · rw [if_neg (by simp [h]), if_pos (by simpa using h), List.length_cons, List.length_cons]
      omega

/-- C9: `GetPRStats` is a pure read (the state component it returns is the
input state); it reports `totalPRs` as the number of PRs, `openPRs` and
`mergedPRs` as the counts of PRs with status OPEN and MERGED (which sum to
the total, statuses being constrained to these two values), and the
average as the number of reviewer rows divided by the number of PRs, `0`
when there are no PRs. -/
theorem claim_C9_stats (s : DBState)
    (hstatus : ∀ r ∈ s.prs, r.status = "OPEN" ∨ r.status = "MERGED")
    (hnd : (s.prs.map (fun r => r.pullRequestId)).Nodup)
    (hfk : ∀ rv ∈ s.prReviewers, ∃ r ∈ s.prs, r.pullRequestId = rv.1) :
    (getPRStats s).2 = s ∧
    (getPRStats s).1.totalPRs = s.prs.length ∧
    (getPRStats s).1.openPRs = (s.prs.filter (fun r => r.status == "OPEN")).length ∧
    (getPRStats s).1.mergedPRs = (s.prs.filter (fun r => r.status == "MERGED")).length ∧
    (getPRStats s).1.openPRs + (getPRStats s).1.mergedPRs = (getPRStats s).1.totalPRs ∧
    (getPRStats s).1.avgReviewersPerPR =
      (if s.prs.length = 0 then 0
        else (s.prReviewers.length : Rat) / (s.prs.length : Rat)) := by
  refine ⟨rfl, rfl, rfl, rfl, count_open_add_merged s.prs hstatus, ?_⟩
  show (if ((statsJoinRows s).map (fun r => r.1.pullRequestId)).dedup.length = 0 then (0 : Rat)
    else (((statsJoinRows s).filter (fun r => r.2.isSome)).length : Rat) /
      (((statsJoinRows s).map (fun r => r.1.pullRequestId)).dedup.length : Rat)) = _
  rw [statsJoin_distinct_count s hnd, statsJoin_reviewer_count s hnd hfk]

/-- witness for C9 on a concrete state with two PRs (one open, one merged)
and three reviewer rows: total 2, open 1, merged 1, average 3/2 -/
theorem claim_C9_stats_witness :
    (getPRStats ⟨["Backend"], [],
      [⟨"PR-1", "a", 1, "OPEN", 0, none⟩, ⟨"PR-2", "b", 1, "MERGED", 0, some 3⟩],
      [("PR-1", 2), ("PR-1", 3), ("PR-2", 2)]⟩).1.totalPRs = 2 ∧
    (getPRStats ⟨["Backend"], [],
      [⟨"PR-1", "a", 1, "OPEN", 0, none⟩, ⟨"PR-2", "b", 1, "MERGED", 0, some 3⟩],
      [("PR-1", 2), ("PR-1", 3), ("PR-2", 2)]⟩).1.avgReviewersPerPR = (3 : Rat) / 2 := by
  have h := claim_C9_stats ⟨["Backend"], [],
    [⟨"PR-1", "a", 1, "OPEN", 0, none⟩, ⟨"PR-2", "b", 1, "MERGED", 0, some 3⟩],
    [("PR-1", 2), ("PR-1", 3), ("PR-2", 2)]⟩
    (by decide) (by decide) (by decide)
  refine ⟨by rw [h.2.1]; rfl, ?_⟩
  rw [h.2.2.2.2.2]
  norm_num

/-! ### `Atoi` failure is exactly the non-integers -/

theorem goAtoi_none_iff (bs : List Nat) : goAtoi bs = none ↔ ¬ IsGoInt bs := by
  by_cases h43 : bs.head? = some 43
  · have h45 : ¬ bs.head? = some 45 := by
      rw [h43]
      intro hc
      exact absurd (Option.some.inj hc) (by decide)
    have hds : atoiDigits bs = bs.tail := if_pos (Or.inl h43)
    have hneg : atoiNeg bs = false := by
      unfold atoiNeg
      simpa using h45
    have hsv : atoiSV bs = (digitsNatVal bs.tail : Int) := by
      unfold atoiSV
      rw [hneg, hds]
      rfl
    unfold goAtoi IsGoInt
    rw [hds, hsv, if_pos h43]
    by_cases hnil : bs.tail = []
    · rw [if_pos hnil]
      simp [DigitsOnly, hnil]
    · rw [if_neg hnil]
      by_cases hdig : ∀ b ∈ bs.tail, 48 ≤ b ∧ b ≤ 57
      · rw [if_pos hdig]
        have h0 : (0 : Int) ≤ (digitsNatVal bs.tail : Int) := Int.natCast_nonneg _
        by_cases hr : ((digitsNatVal bs.tail : Int) < -(2 ^ 63) ∨
            (2 ^ 63 - 1 : Int) < (digitsNatVal bs.tail : Int))
        · rw [if_pos hr]
          constructor
          · intro _ hc
            rcases hr with hr | hr
            · omega
            · exact absurd hc.2 (by omega)
          · intro _
            rfl
        · rw [if_neg hr]
          push_neg at hr
          constructor
          · intro hc
            exact Option.noConfusion hc
          · intro hc
            exact absurd ⟨⟨hnil, hdig⟩, hr.2⟩ hc
      · rw [if_neg hdig]
        constructor
        · intro _ hc
          exact hdig hc.1.2
        · intro _
          rfl
  · by_cases h45 : bs.head? = some 45
    · have hds : atoiDigits bs = bs.tail := if_pos (Or.inr h45)
      have hneg : atoiNeg bs = true := by
        unfold atoiNeg
        simpa using h45
      have hsv : atoiSV bs = -(digitsNatVal bs.tail : Int) := by
        unfold atoiSV
        rw [hneg, hds]
        rfl
      unfold goAtoi IsGoInt
      rw [hds, hsv, if_neg h43, if_pos h45]
      by_cases hnil : bs.tail = []
      · rw [if_pos hnil]
        simp [DigitsOnly, hnil]
      · rw [if_neg hnil]
        by_cases hdig : ∀ b ∈ bs.tail, 48 ≤ b ∧ b ≤ 57
        · rw [if_pos hdig]
          have h0 : (0 : Int) ≤ (digitsNatVal bs.tail : Int) := Int.natCast_nonneg _
          by_cases hr : (-(digitsNatVal bs.tail : Int) < -(2 ^ 63) ∨
              (2 ^ 63 - 1 : Int) < -(digitsNatVal bs.tail : Int))
          · rw [if_pos hr]
            constructor
            · intro _ hc
              rcases hr with hr | hr
              · exact absurd hc.2 (by omega)
              · omega
            · intro _
              rfl
          · rw [if_neg hr]
            push_neg at hr
            constructor
            · intro hc
              exact Option.noConfusion hc
            · intro hc
              exact absurd ⟨⟨hnil, hdig⟩, by omega⟩ hc
        · rw [if_neg hdig]
          constructor
          · intro _ hc
            exact hdig hc.1.2
          · intro _
            rfl
    · have hds : atoiDigits bs = bs := if_neg (by
        rintro (hc | hc)
        · exact h43 hc
        · exact h45 hc)
      have hneg : atoiNeg bs = false := by
        unfold atoiNeg
        simpa using h45
      have hsv : atoiSV bs = (digitsNatVal bs : Int) := by
        unfold atoiSV
        rw [hneg, hds]
        rfl
      unfold goAtoi IsGoInt
      rw [hds, hsv, if_neg h43, if_neg h45]
      by_cases hnil : bs = []
      · rw [if_pos hnil]
        simp [DigitsOnly, hnil]
      · rw [if_neg hnil]
        by_cases hdig : ∀ b ∈ bs, 48 ≤ b ∧ b ≤ 57
        · rw [if_pos hdig]
          have h0 : (0 : Int) ≤ (digitsNatVal bs : Int) := Int.natCast_nonneg _
          by_cases hr : ((digitsNatVal bs : Int) < -(2 ^ 63) ∨
              (2 ^ 63 - 1 : Int) < (digitsNatVal bs : Int))
          · rw [if_pos hr]
            constructor
            · intro _ hc
              rcases hr with hr | hr
              · omega
              · exact absurd hc.2 (by omega)
            · intro _
              rfl
          · rw [if_neg hr]
            push_neg at hr
            constructor
            · intro hc
              exact Option.noConfusion hc
            · intro hc
              exact absurd ⟨⟨hnil, hdig⟩, hr.2⟩ hc
        · rw [if_neg hdig]
          constructor
          · intro _ hc
            exact hdig hc.1.2
          · intro _
            rfl

/-- C10: total behaviour of the user-id handling of `UserService`: for the
empty id both `SetUserActiveStatus` and `GetUserReview` panic (the slice
`userID[1:]` is out of bounds); for every non-empty id neither panics, and
each returns the invalid-format error exactly when the bytes after the
first are not a decimal integer (optional sign, digits, value fitting
Go's 64-bit `int`). -/
theorem claim_C10_user_id_handling {α : Type} (provSet : Bool → Int → Option α)
    (provGet : Int → Option α) (isActive : Bool) (userID : GoStr) :
    (userID = [] →
      setUserActiveStatus provSet isActive userID = .panicked ∧
      getUserReview provGet userID = .panicked) ∧
    (¬ userID = [] →
      ¬ setUserActiveStatus provSet isActive userID = .panicked ∧
      ¬ getUserReview provGet userID = .panicked ∧
      (setUserActiveStatus provSet isActive userID = .invalidFormat ↔
        ¬ IsGoInt (userID.drop 1)) ∧
      (getUserReview provGet userID = .invalidFormat ↔
        ¬ IsGoInt (userID.drop 1))) := by
  match userID with
  | [] =>
    refine ⟨fun _ => ⟨rfl, rfl⟩, fun hc => absurd rfl hc⟩
  | b :: rest =>
    refine ⟨fun hc => List.noConfusion hc, fun _ => ?_⟩
    have hdrop : (b :: rest).drop 1 = rest := rfl
    rw [hdrop]
    show ¬ (match goAtoi rest with
        | none => UserSvcResult.invalidFormat
        | some v => match provSet isActive v with
          | none => UserSvcResult.providerError
          | some u => UserSvcResult.ok u) = UserSvcResult.panicked ∧ _
    cases hA : goAtoi rest with
    | none =>
      refine ⟨fun hc => UserSvcResult.noConfusion hc, ?_, ?_, ?_⟩
      · show ¬ (match goAtoi rest with
          | none => UserSvcResult.invalidFormat
          | some v => match provGet v with
            | none => UserSvcResult.providerError
            | some u => UserSvcResult.ok u) = UserSvcResult.panicked
        rw [hA]
        exact fun hc => UserSvcResult.noConfusion hc
      · show (match goAtoi rest with
          | none => UserSvcResult.invalidFormat
          | some v => match provSet isActive v with
            | none => UserSvcResult.providerError
            | some u => UserSvcResult.ok u) = UserSvcResult.invalidFormat ↔ _
        rw [hA]
        exact iff_of_true rfl ((goAtoi_none_iff rest).mp hA)
      · show (match goAtoi rest with
          | none => UserSvcResult.invalidFormat
          | some v => match provGet v with
            | none => UserSvcResult.providerError
            | some u => UserSvcResult.ok u) = UserSvcResult.invalidFormat ↔ _
        rw [hA]
        exact iff_of_true rfl ((goAtoi_none_iff rest).mp hA)
    | some v =>
      have hint : IsGoInt rest := by
        by_contra hc
        rw [← goAtoi_none_iff] at hc
        rw [hA] at hc
        exact Option.noConfusion hc
      refine ⟨?_, ?_, ?_, ?_⟩
      · show ¬ (match provSet isActive v with
          | none => UserSvcResult.providerError
          | some u => UserSvcResult.ok u) = UserSvcResult.panicked
        cases provSet isActive v with
        | none => exact fun hc => UserSvcResult.noConfusion hc
        | some u => exact fun hc => UserSvcResult.noConfusion hc
      · show ¬ (match goAtoi rest with
          | none => UserSvcResult.invalidFormat
          | some v => match provGet v with
            | none => UserSvcResult.providerError
            | some u => UserSvcResult.ok u) = UserSvcResult.panicked
        rw [hA]
        show ¬ (match provGet v with
          | none => UserSvcResult.providerError
          | some u => UserSvcResult.ok u) = UserSvcResult.panicked
        cases provGet v with
        | none => exact fun hc => UserSvcResult.noConfusion hc
        | some u => exact fun hc => UserSvcResult.noConfusion hc
      · show (match goAtoi rest with
          | none => UserSvcResult.invalidFormat
          | some v => match provSet isActive v with
            | none => UserSvcResult.providerError
            | some u => UserSvcResult.ok u) = UserSvcResult.invalidFormat ↔ _
        rw [hA]
        refine iff_of_false ?_ (fun hc => hc hint)
        show ¬ (match provSet isActive v with
          | none => UserSvcResult.providerError
          | some u => UserSvcResult.ok u) = UserSvcResult.invalidFormat
        cases provSet isActive v with
        | none => exact fun hc => UserSvcResult.noConfusion hc
        | some u => exact fun hc => UserSvcResult.noConfusion hc
      · show (match goAtoi rest with
          | none => UserSvcResult.invalidFormat
          | some v => match provGet v with
            | none => UserSvcResult.providerError
            | some u => UserSvcResult.ok u) = UserSvcResult.invalidFormat ↔ _
        rw [hA]
        refine iff_of_false ?_ (fun hc => hc hint)
        show ¬ (match provGet v with
          | none => UserSvcResult.providerError
          | some u => UserSvcResult.ok u) = UserSvcResult.invalidFormat
        cases provGet v with
        | none => exact fun hc => UserSvcResult.noConfusion hc
        | some u => exact fun hc => UserSvcResult.noConfusion hc

/-- witness for C10: the id `u5` (bytes 117, 53) panics on neither method
and is not rejected, while the empty id panics -/
theorem claim_C10_user_id_handling_witness :
    (¬ ([117, 53] : GoStr) = []) ∧
    (¬ setUserActiveStatus (fun _ _ => some (0 : Nat)) true [117, 53] = .panicked) ∧
    (setUserActiveStatus (fun _ _ => some (0 : Nat)) true [117, 53] = .invalidFormat ↔
      ¬ IsGoInt (([117, 53] : GoStr).drop 1)) ∧
    setUserActiveStatus (fun _ _ => some (0 : Nat)) true [] = .panicked := by
  have h := claim_C10_user_id_handling (fun _ _ => some (0 : Nat))
    (fun _ => some (0 : Nat)) true [117, 53]
  have h0 := claim_C10_user_id_handling (fun _ _ => some (0 : Nat))
    (fun _ => some (0 : Nat)) true []
  exact ⟨by decide, (h.2 (by decide)).1, (h.2 (by decide)).2.2.1, (h0.1 rfl).1⟩

/-- C3: the reviewer-selection algorithm `selectRandomReviewers` on a
duplicate-free pool `P` with count `k`: when `|P| ≤ k` it returns a
rearrangement of all of `P`, and every rearrangement of `P` arises from
exactly one of the `|P|!` equally likely draw sequences (a uniformly
random permutation); when `|P| > k` it returns exactly `k` elements of
`P`, without duplicates, and every element of `P` is included for the same
number of draw sequences (equal inclusion probability). -/
theorem claim_C3_selection (P : List String) (k : Nat) (hnd : P.Nodup) :
    (P.length ≤ k →
      (∀ cs : FYChoices P.length, (selectRandomReviewers P k cs).Perm P) ∧
      (∀ q : List String, q.Perm P →
        ∃! cs : FYChoices P.length, selectRandomReviewers P k cs = q)) ∧
    (¬ P.length ≤ k →
      (∀ cs : FYChoices P.length,
        (selectRandomReviewers P k cs).length = k ∧
        (selectRandomReviewers P k cs).Nodup ∧
        (∀ x ∈ selectRandomReviewers P k cs, x ∈ P)) ∧
      (∀ x ∈ P, ∀ y ∈ P, inclusionCount P k x = inclusionCount P k y)) := by
  constructor
  · intro hk
    have hsel : ∀ cs : FYChoices P.length, selectRandomReviewers P k cs = goShuffle P cs :=
      fun _ => if_pos hk
    constructor
    · intro cs
      rw [hsel cs]
      exact goShuffle_perm P cs
    · intro q hq
      obtain ⟨cs, hcs, huniq⟩ := goShuffle_existsUnique P hnd q hq
      refine ⟨cs, ?_, ?_⟩
      · show selectRandomReviewers P k cs = q
        rw [hsel cs]
        exact hcs
      · intro cs₂ h₂
        refine huniq cs₂ ?_
        show goShuffle P cs₂ = q
        rw [← hsel cs₂]
        exact h₂
  · intro hk
    constructor
    · intro cs
      have hsel : selectRandomReviewers P k cs = (goShuffle P cs).take k := if_neg hk
      rw [hsel]
      refine ⟨?_, ?_, ?_⟩
      · rw [List.length_take, goShuffle_length]
        omega
      · exact (List.take_sublist k _).nodup (goShuffle_nodup P hnd cs)
      · intro x hx
        exact (goShuffle_perm P cs).mem_iff.mp ((List.take_sublist k _).subset hx)
    · intro x hx y hy
      exact inclusionCount_uniform P hnd k hk x y hx hy

/-- witness for C3 on the pool `u1, u2, u3` with `k = 2` -/
theorem claim_C3_selection_witness :
    (["u1", "u2", "u3"] : List String).Nodup ∧
    (¬ (["u1", "u2", "u3"] : List String).length ≤ 2) ∧
    ((∀ cs : FYChoices (["u1", "u2", "u3"] : List String).length,
      (selectRandomReviewers ["u1", "u2", "u3"] 2 cs).length = 2 ∧
      (selectRandomReviewers ["u1", "u2", "u3"] 2 cs).Nodup ∧
      (∀ x ∈ selectRandomReviewers ["u1", "u2", "u3"] 2 cs,
        x ∈ (["u1", "u2", "u3"] : List String))) ∧
    (∀ x ∈ (["u1", "u2", "u3"] : List String),
      ∀ y ∈ (["u1", "u2", "u3"] : List String),
        inclusionCount ["u1", "u2", "u3"] 2 x = inclusionCount ["u1", "u2", "u3"] 2 y)) :=
  ⟨by decide, by decide,
    (claim_C3_selection ["u1", "u2", "u3"] 2 (by decide)).2 (by decide)⟩

/-! ### Facts about the candidate pool and the selection, used for the
creation path -/

theorem formatUserID_ne_empty (n : Nat) : ¬ formatUserID n = "" := by
  intro hc
  have h := congrArg String.data hc
  simp only [formatUserID] at h
  exact List.noConfusion h

theorem pool_canonical (s : DBState) (tm : String) (excl : List String) :
    ∀ x ∈ getActiveTeamMembers s tm excl, ∃ m, x = formatUserID m := by
  intro x hx
  unfold getActiveTeamMembers at hx
  obtain ⟨m, _, hm⟩ := List.mem_map.mp (List.mem_filter.mp hx).1
  exact ⟨m.userId, hm.symm⟩

theorem pool_nodup (s : DBState) (tm : String) (excl : List String)
    (husers : (s.users.map (fun u => u.userId)).Nodup) :
    (getActiveTeamMembers s tm excl).Nodup := by
  unfold getActiveTeamMembers
  apply List.Nodup.filter
  have hsub : (s.users.filter (fun u => u.teamName == tm && u.isActive)).map
      (fun u => u.userId) |>.Sublist (s.users.map (fun u => u.userId)) :=
    (List.filter_sublist s.users).map (fun u => u.userId)
  have hnd2 := hsub.nodup husers
  have hcomp : (fun u : User => formatUserID u.userId) =
      (formatUserID ∘ fun u : User => u.userId) := rfl
  rw [hcomp, ← List.map_map]
  exact hnd2.map formatUserID_injective

theorem pool_not_excluded (s : DBState) (tm : String) (excl : List String) :
    ∀ x ∈ getActiveTeamMembers s tm excl, ¬ x ∈ excl := by
  intro x hx hmem
  unfold getActiveTeamMembers at hx
  have h2 := (List.mem_filter.mp hx).2
  rw [Bool.not_eq_eq_eq_not, Bool.not_true] at h2
  have h3 : excl.contains x = true := List.elem_iff.mpr hmem
  rw [h3] at h2
  exact Bool.noConfusion h2

theorem select_subset (P : List String) (k : Nat) (cs : FYChoices P.length) :
    ∀ x ∈ selectRandomReviewers P k cs, x ∈ P := by
  intro x hx
  unfold selectRandomReviewers at hx
  by_cases hk : P.length ≤ k
  · rw [if_pos hk] at hx
    exact (goShuffle_perm P cs).mem_iff.mp hx
  · rw [if_neg hk] at hx
    exact (goShuffle_perm P cs).mem_iff.mp ((List.take_sublist k _).subset hx)

theorem select_nodup (P : List String) (k : Nat) (hnd : P.Nodup) (cs : FYChoices P.length) :
    (selectRandomReviewers P k cs).Nodup := by
  unfold selectRandomReviewers
  by_cases hk : P.length ≤ k
  · rw [if_pos hk]
    exact goShuffle_nodup P hnd cs
  · rw [if_neg hk]
    exact (List.take_sublist k _).nodup (goShuffle_nodup P hnd cs)

theorem select_length_pos (P : List String) (k : Nat) (cs : FYChoices P.length)
    (hP : ¬ P = []) (hk : 0 < k) : 0 < (selectRandomReviewers P k cs).length := by
  have hlen : 0 < P.length := List.length_pos.mpr hP
  unfold selectRandomReviewers
  by_cases hle : P.length ≤ k
  · rw [if_pos hle, goShuffle_length]
    exact hlen
  · rw [if_neg hle, List.length_take, goShuffle_length]
    omega

theorem select_length_two (P : List String) (cs : FYChoices P.length)
    (h2 : 2 ≤ P.length) : (selectRandomReviewers P 2 cs).length = 2 := by
  unfold selectRandomReviewers
  by_cases hle : P.length ≤ 2
  · rw [if_pos hle, goShuffle_length]
    omega
  · rw [if_neg hle, List.length_take, goShuffle_length]
    omega

theorem select_singleton (P : List String) (k : Nat) (cs : FYChoices P.length)
    (h1 : P.length = 1) (hk : 1 ≤ k) : selectRandomReviewers P k cs = P := by
  obtain ⟨a, ha⟩ := List.length_eq_one.mp h1
  unfold selectRandomReviewers
  rw [if_pos (by omega)]
  have hperm : (goShuffle P cs).Perm [a] := by
    rw [← ha]
    exact goShuffle_perm P cs
  rw [List.perm_singleton.mp hperm, ha]

theorem addLoop_ok (prID : String) :
    ∀ (revs : List String) (rows : List (String × Nat)),
      (∀ rev ∈ revs, ∃ m, rev = formatUserID m) →
      revs.Nodup →
      (∀ r ∈ rows, r.1 = prID → ¬ formatUserID r.2 ∈ revs) →
      addPRReviewersLoop prID revs rows =
        .ok (rows ++ revs.map (fun rev => (prID, (extractUserID rev).getD 0)))
  | [], rows, _, _, _ => by simp [addPRReviewersLoop]
  | rev :: rest, rows, hcanon, hnd, hinv => by
    obtain ⟨m, rfl⟩ := hcanon rev (List.mem_cons_self rev rest)
    unfold addPRReviewersLoop
    rw [extractUserID_formatUserID m]
    have hany : rows.any (fun r => r.1 == prID && r.2 == m) = false := by
      rw [List.any_eq_false]
      intro r hr hc
      rw [Bool.and_eq_true, beq_iff_eq, beq_iff_eq] at hc
      exact hinv r hr hc.1 (by rw [hc.2]; exact List.mem_cons_self _ rest)
    dsimp only
    rw [if_neg (by rw [hany]; decide)]
    rw [addLoop_ok prID rest (rows ++ [(prID, m)])
      (fun r hr => hcanon r (List.mem_cons_of_mem _ hr))
      (List.Nodup.of_cons hnd)
      (by
        intro r hr hid
        rcases List.mem_append.mp hr with hr | hr
        · intro hc
          exact hinv r hr hid (List.mem_cons_of_mem _ hc)
        · rw [List.mem_singleton] at hr
          rw [hr]
          intro hc
          have := List.nodup_cons.mp hnd
          exact this.1 hc)]
    simp
    rw [extractUserID_formatUserID m]
    rfl

/-- the full success path of `CreatePRWithReviewers` for a canonical
author id: the PR row is inserted with the parsed author id, the selected
reviewers are inserted, and the returned reviewer list is exactly the
selection from the exclusion-filtered pool -/
theorem createPR_success_trace (s : DBState) (pr : PullRequest) (tape : RandTape)
    (now : Nat) (tm : String) (a : Nat)
    (hid : ¬ pr.pullRequestId = "")
    (hname : ¬ pr.pullRequestName = "")
    (hcanon : pr.authorID = formatUserID a)
    (hnotex : prExists s pr.pullRequestId = false)
    (hteam : getAuthorTeam s pr.authorID = .ok tm)
    (husers : (s.users.map (fun u => u.userId)).Nodup)
    (hnorows : ∀ rv ∈ s.prReviewers, ¬ rv.1 = pr.pullRequestId)
    (hpool : ¬ getActiveTeamMembers s tm [pr.authorID] = []) :
    createPRWithReviewers s pr tape now =
      (.ok (⟨pr.pullRequestId, pr.pullRequestName, formatUserID a, "OPEN", now, none⟩,
        selectRandomReviewers (getActiveTeamMembers s tm [pr.authorID]) 2
          (tape (getActiveTeamMembers s tm [pr.authorID]).length)),
       { s with
          prs := s.prs ++ [⟨pr.pullRequestId, pr.pullRequestName, a, "OPEN", now, none⟩],
          prReviewers := s.prReviewers ++
            (selectRandomReviewers (getActiveTeamMembers s tm [pr.authorID]) 2
              (tape (getActiveTeamMembers s tm [pr.authorID]).length)).map
                (fun rev => (pr.pullRequestId, (extractUserID rev).getD 0)) }) := by
  have hpool_can := pool_canonical s tm [pr.authorID]
  have hpool_nd := pool_nodup s tm [pr.authorID] husers
  have hrevs_sub := select_subset (getActiveTeamMembers s tm [pr.authorID]) 2
    (tape (getActiveTeamMembers s tm [pr.authorID]).length)
  have hrevs_nd := select_nodup (getActiveTeamMembers s tm [pr.authorID]) 2 hpool_nd
    (tape (getActiveTeamMembers s tm [pr.authorID]).length)
  have hrevs_can : ∀ rev ∈ selectRandomReviewers (getActiveTeamMembers s tm [pr.authorID]) 2
      (tape (getActiveTeamMembers s tm [pr.authorID]).length), ∃ m, rev = formatUserID m :=
    fun rev hrev => hpool_can rev (hrevs_sub rev hrev)
  unfold createPRWithReviewers
  rw [if_neg (by simpa using hid), if_neg (by simpa using hname),
    if_neg (by rw [hcanon]; simpa using formatUserID_ne_empty a),
    if_neg (by simp [hnotex]), hteam]
  dsimp only
  rw [if_neg (by simpa [List.length_eq_zero] using hpool)]
  have hcreate : createPR s { pr with status := "OPEN", createdAt := now } =
      (.ok (), { s with prs := s.prs ++
        [⟨pr.pullRequestId, pr.pullRequestName, a, "OPEN", now, none⟩] }) := by
    unfold createPR
    show (match extractUserID pr.authorID with
      | none => (Except.error AppError.authorRequired, s)
      | some aid =>
        if prExists s pr.pullRequestId then (Except.error AppError.prExists, s)
        else (Except.ok (), { s with prs := s.prs ++
          [(⟨pr.pullRequestId, pr.pullRequestName, aid, "OPEN", now, none⟩ : PRRow)] })) = _
    rw [hcanon, extractUserID_formatUserID a]
    dsimp only
    rw [if_neg (by simp [hnotex])]
  rw [hcreate]
  dsimp only
  rw [if_pos (select_length_pos (getActiveTeamMembers s tm [pr.authorID]) 2
    (tape (getActiveTeamMembers s tm [pr.authorID]).length) hpool (by decide))]
  have hadd : addPRReviewers
      { s with prs := s.prs ++
        [⟨pr.pullRequestId, pr.pullRequestName, a, "OPEN", now, none⟩] }
      pr.pullRequestId
      (selectRandomReviewers (getActiveTeamMembers s tm [pr.authorID]) 2
        (tape (getActiveTeamMembers s tm [pr.authorID]).length)) =
      (.ok (), { s with
        prs := s.prs ++ [⟨pr.pullRequestId, pr.pullRequestName, a, "OPEN", now, none⟩],
        prReviewers := s.prReviewers ++
          (selectRandomReviewers (getActiveTeamMembers s tm [pr.authorID]) 2
            (tape (getActiveTeamMembers s tm [pr.authorID]).length)).map
              (fun rev => (pr.pullRequestId, (extractUserID rev).getD 0)) }) := by
    unfold addPRReviewers
    rw [addLoop_ok pr.pullRequestId _ _ hrevs_can hrevs_nd
      (by
        intro r hr hid2
        exact absurd hid2 (hnorows r hr))]
  rw [hadd]
  dsimp only
  have hfind : (s.prs ++
      [(⟨pr.pullRequestId, pr.pullRequestName, a, "OPEN", now, none⟩ : PRRow)]).find?
        (fun r => r.pullRequestId == pr.pullRequestId) =
      some ⟨pr.pullRequestId, pr.pullRequestName, a, "OPEN", now, none⟩ := by
    rw [List.find?_append]
    have hnone : s.prs.find? (fun r => r.pullRequestId == pr.pullRequestId) = none := by
      rw [List.find?_eq_none]
      intro x hx
      simpa using (prExists_false_iff s pr.pullRequestId).mp hnotex x hx
    rw [hnone]
    simp [List.find?]
  have hread : getPRWithReviewers
      { s with
        prs := s.prs ++ [⟨pr.pullRequestId, pr.pullRequestName, a, "OPEN", now, none⟩],
        prReviewers := s.prReviewers ++
          (selectRandomReviewers (getActiveTeamMembers s tm [pr.authorID]) 2
            (tape (getActiveTeamMembers s tm [pr.authorID]).length)).map
              (fun rev => (pr.pullRequestId, (extractUserID rev).getD 0)) }
      pr.pullRequestId =
      .ok (⟨pr.pullRequestId, pr.pullRequestName, formatUserID a, "OPEN", now, none⟩,
        selectRandomReviewers (getActiveTeamMembers s tm [pr.authorID]) 2
          (tape (getActiveTeamMembers s tm [pr.authorID]).length)) := by
    unfold getPRWithReviewers getPR
    rw [hfind]
    dsimp only
    have hstrs : getPRReviewerStrs
        { s with
          prs := s.prs ++ [⟨pr.pullRequestId, pr.pullRequestName, a, "OPEN", now, none⟩],
          prReviewers := s.prReviewers ++
            (selectRandomReviewers (getActiveTeamMembers s tm [pr.authorID]) 2
              (tape (getActiveTeamMembers s tm [pr.authorID]).length)).map
                (fun rev => (pr.pullRequestId, (extractUserID rev).getD 0)) }
        pr.pullRequestId =
        selectRandomReviewers (getActiveTeamMembers s tm [pr.authorID]) 2
          (tape (getActiveTeamMembers s tm [pr.authorID]).length) := by
      unfold getPRReviewerStrs
      show (((s.prReviewers ++
        (selectRandomReviewers (getActiveTeamMembers s tm [pr.authorID]) 2
          (tape (getActiveTeamMembers s tm [pr.authorID]).length)).map
            (fun rev => (pr.pullRequestId, (extractUserID rev).getD 0))).filter
          (fun r => r.1 == pr.pullRequestId)).map (fun r => formatUserID r.2)) = _
      rw [List.filter_append]
      have h1 : s.prReviewers.filter (fun r => r.1 == pr.pullRequestId) = [] := by
        rw [List.filter_eq_nil_iff]
        intro rv hrv
        simpa using hnorows rv hrv
      have h2 : ((selectRandomReviewers (getActiveTeamMembers s tm [pr.authorID]) 2
          (tape (getActiveTeamMembers s tm [pr.authorID]).length)).map
            (fun rev => (pr.pullRequestId, (extractUserID rev).getD 0))).filter
          (fun r => r.1 == pr.pullRequestId) =
          (selectRandomReviewers (getActiveTeamMembers s tm [pr.authorID]) 2
            (tape (getActiveTeamMembers s tm [pr.authorID]).length)).map
              (fun rev => (pr.pullRequestId, (extractUserID rev).getD 0)) := by
        rw [List.filter_eq_self]
        intro p hp
        obtain ⟨rev, _, hrev⟩ := List.mem_map.mp hp
        rw [← hrev]
        simp
      rw [h1, h2, List.nil_append, List.map_map]
      have h3 : ∀ rev ∈ selectRandomReviewers (getActiveTeamMembers s tm [pr.authorID]) 2
          (tape (getActiveTeamMembers s tm [pr.authorID]).length),
          ((fun r : String × Nat => formatUserID r.2) ∘
            (fun rev => (pr.pullRequestId, (extractUserID rev).getD 0))) rev = id rev := by
        intro rev hrev
        obtain ⟨m, rfl⟩ := hrevs_can rev hrev
        show formatUserID ((extractUserID (formatUserID m)).getD 0) = formatUserID m
        rw [extractUserID_formatUserID m]
        rfl
      rw [List.map_congr_left h3, List.map_id]
    rw [hstrs]
  rw [hread]

/-- C1 (amended): for a PR creation whose author id is canonical (the
exact string the system prints for a user id), with the exclusion-filtered
pool of size `n`: `n = 0` fails with `ErrNoReviewerCandidates` and leaves
the state unchanged; `n = 1` succeeds and assigns exactly the single pool
member; `n ≥ 2` succeeds and assigns exactly 2 distinct reviewers, neither
equal to the author (the claim without the canonicality hypothesis is
refuted by `claim_C1_create_pool_sizes_counterexample`: a non-canonical
author id such as `u01` escapes the string-level exclusion and the author
can be selected). -/
theorem claim_C1_create_pool_sizes (s : DBState) (pr : PullRequest) (tape : RandTape)
    (now : Nat) (tm : String) (a : Nat)
    (hid : ¬ pr.pullRequestId = "")
    (hname : ¬ pr.pullRequestName = "")
    (hcanon : pr.authorID = formatUserID a)
    (hnotex : prExists s pr.pullRequestId = false)
    (hteam : getAuthorTeam s pr.authorID = .ok tm)
    (husers : (s.users.map (fun u => u.userId)).Nodup)
    (hnorows : ∀ rv ∈ s.prReviewers, ¬ rv.1 = pr.pullRequestId) :
    ((getActiveTeamMembers s tm [pr.authorID]).length = 0 →
      createPRWithReviewers s pr tape now = (.error .noReviewerCandidates, s)) ∧
    ((getActiveTeamMembers s tm [pr.authorID]).length = 1 →
      ∃ createdPR s', createPRWithReviewers s pr tape now =
        (.ok (createdPR, getActiveTeamMembers s tm [pr.authorID]), s')) ∧
    (2 ≤ (getActiveTeamMembers s tm [pr.authorID]).length →
      ∃ createdPR revs s',
        createPRWithReviewers s pr tape now = (.ok (createdPR, revs), s') ∧
        revs.length = 2 ∧ revs.Nodup ∧
        ¬ pr.authorID ∈ revs ∧ ¬ createdPR.authorID ∈ revs) := by
  refine ⟨?_, ?_, ?_⟩
  · intro h0
    unfold createPRWithReviewers
    rw [if_neg (by simpa using hid), if_neg (by simpa using hname),
      if_neg (by rw [hcanon]; simpa using formatUserID_ne_empty a),
      if_neg (by simp [hnotex]), hteam]
    dsimp only
    rw [if_pos h0]
  · intro h1
    have hpool : ¬ getActiveTeamMembers s tm [pr.authorID] = [] := by
      intro hc
      rw [hc] at h1
      exact Nat.noConfusion h1
    have htr := createPR_success_trace s pr tape now tm a hid hname hcanon hnotex hteam
      husers hnorows hpool
    rw [select_singleton (getActiveTeamMembers s tm [pr.authorID]) 2
      (tape (getActiveTeamMembers s tm [pr.authorID]).length) h1 (by decide)] at htr
    exact ⟨_, _, htr⟩
  · intro h2
    have hpool : ¬ getActiveTeamMembers s tm [pr.authorID] = [] := by
      intro hc
      rw [hc] at h2
      exact absurd h2 (by decide)
    refine ⟨⟨pr.pullRequestId, pr.pullRequestName, formatUserID a, "OPEN", now, none⟩,
      selectRandomReviewers (getActiveTeamMembers s tm [pr.authorID]) 2
        (tape (getActiveTeamMembers s tm [pr.authorID]).length), _,
      createPR_success_trace s pr tape now tm a hid hname hcanon hnotex hteam husers
        hnorows hpool,
      select_length_two (getActiveTeamMembers s tm [pr.authorID]) _ h2,
      select_nodup (getActiveTeamMembers s tm [pr.authorID]) 2
        (pool_nodup s tm [pr.authorID] husers) _, ?_, ?_⟩
    · intro hc
      exact pool_not_excluded s tm [pr.authorID] pr.authorID
        (select_subset (getActiveTeamMembers s tm [pr.authorID]) 2 _ pr.authorID hc)
        (List.mem_singleton.mpr rfl)
    · show ¬ formatUserID a ∈ _
      rw [← hcanon]
      intro hc
      exact pool_not_excluded s tm [pr.authorID] pr.authorID
        (select_subset (getActiveTeamMembers s tm [pr.authorID]) 2 _ pr.authorID hc)
        (List.mem_singleton.mpr rfl)

/-- counterexample to C1 as stated (no canonicality restriction on the
author id): the author of PR-1 is user 1, written `u01`; the
exclusion-filtered pool computed by the code has size 3 ≥ 2, the creation
succeeds with the two reviewers `u1` and `u2`, and `u1` — the created
PR's own author — is one of them -/
theorem claim_C1_create_pool_sizes_counterexample :
    2 ≤ (getActiveTeamMembers
      ⟨["Backend"], [⟨1, "Alice", "Backend", true⟩, ⟨2, "Bob", "Backend", true⟩,
        ⟨3, "Carol", "Backend", true⟩], [], []⟩ "Backend" ["u01"]).length ∧
    getAuthorTeam ⟨["Backend"], [⟨1, "Alice", "Backend", true⟩,
      ⟨2, "Bob", "Backend", true⟩, ⟨3, "Carol", "Backend", true⟩], [], []⟩ "u01" =
      .ok "Backend" ∧
    createPRWithReviewers
      ⟨["Backend"], [⟨1, "Alice", "Backend", true⟩, ⟨2, "Bob", "Backend", true⟩,
        ⟨3, "Carol", "Backend", true⟩], [], []⟩
      ⟨"PR-1", "Fix", "u01", "", 0, none⟩ idTape 7 =
      (.ok (⟨"PR-1", "Fix", "u1", "OPEN", 7, none⟩, ["u1", "u2"]),
        ⟨["Backend"], [⟨1, "Alice", "Backend", true⟩, ⟨2, "Bob", "Backend", true⟩,
          ⟨3, "Carol", "Backend", true⟩],
          [⟨"PR-1", "Fix", 1, "OPEN", 7, none⟩], [("PR-1", 1), ("PR-1", 2)]⟩) ∧
    (⟨"PR-1", "Fix", "u1", "OPEN", 7, none⟩ : PullRequest).authorID ∈
      (["u1", "u2"] : List String) := by
  refine ⟨?_, ?_, ?_, ?_⟩
  · decide
  · decide
  · decide
  · decide

/-- witness for the amended C1 on a canonical author `u1` in a team with
three other active members: exactly two distinct reviewers, neither the
author -/
theorem claim_C1_create_pool_sizes_witness :
    2 ≤ (getActiveTeamMembers
      ⟨["Backend"], [⟨1, "Alice", "Backend", true⟩, ⟨2, "Bob", "Backend", true⟩,
        ⟨3, "Carol", "Backend", true⟩, ⟨4, "David", "Backend", true⟩], [], []⟩
      "Backend" ["u1"]).length ∧
    (∃ createdPR revs s',
      createPRWithReviewers
        ⟨["Backend"], [⟨1, "Alice", "Backend", true⟩, ⟨2, "Bob", "Backend", true⟩,
          ⟨3, "Carol", "Backend", true⟩, ⟨4, "David", "Backend", true⟩], [], []⟩
        ⟨"PR-1", "Fix", "u1", "", 0, none⟩ idTape 7 = (.ok (createdPR, revs), s') ∧
      revs.length = 2 ∧ revs.Nodup ∧
      ¬ ("u1" : String) ∈ revs ∧ ¬ createdPR.authorID ∈ revs) := by
  refine ⟨by decide, ?_⟩
  have h := (claim_C1_create_pool_sizes
    ⟨["Backend"], [⟨1, "Alice", "Backend", true⟩, ⟨2, "Bob", "Backend", true⟩,
      ⟨3, "Carol", "Backend", true⟩, ⟨4, "David", "Backend", true⟩], [], []⟩
    ⟨"PR-1", "Fix", "u1", "", 0, none⟩ idTape 7 "Backend" 1
    (by decide) (by decide) (by decide) (by decide) (by decide) (by decide)
    (by intro rv hrv; exact absurd hrv (List.not_mem_nil rv))).2.2 (by decide)
  exact h

/-- C2 is violated by the code (the claim is the intent, the code has a
normalization slip): author ids are excluded from the pool by comparing
the raw input string against the canonically formatted member ids, so the
author id `u01` — which the rest of the pipeline parses as user 1 — fails
to exclude the author; creating PR-1 in a one-member team with author
`u01` succeeds, stores author 1 and reviewer set {1}, and returns a PR
whose own author `u1` is its only reviewer. -/
theorem claim_C2_author_reviewer_violation :
    createPRWithReviewers ⟨["Backend"], [⟨1, "Alice", "Backend", true⟩], [], []⟩
      ⟨"PR-1", "Fix", "u01", "", 0, none⟩ idTape 7 =
      (.ok (⟨"PR-1", "Fix", "u1", "OPEN", 7, none⟩, ["u1"]),
        ⟨["Backend"], [⟨1, "Alice", "Backend", true⟩],
          [⟨"PR-1", "Fix", 1, "OPEN", 7, none⟩], [("PR-1", 1)]⟩) ∧
    (⟨"PR-1", "Fix", "u1", "OPEN", 7, none⟩ : PullRequest).authorID ∈
      (["u1"] : List String) ∧
    ("PR-1", (⟨"PR-1", "Fix", 1, "OPEN", 7, none⟩ : PRRow).authorId) ∈
      ([("PR-1", 1)] : List (String × Nat)) := by
  refine ⟨?_, ?_, ?_⟩
  · decide
  · decide
  · decide

end PullReq
